import Mathlib

/-!
Verification of the collateral/offer lifecycle engine of the Atlas DAO
NFT-loan contracts (`contracts/nft-loan` with the shared state helpers of
`contracts/nft-loans-non-custodial/src/state.rs` and the data model of
`packages/nft-loans/src/state.rs`).

The Rust contract is shallowly embedded: contract storage becomes an explicit
`Storage` value (association lists keyed like the `cw-storage-plus` maps),
each execute entry point becomes a pure function
`Storage → args → Except ContractError (Storage × List LoanMsg)`, and the
outbound CosmWasm messages become the `LoanMsg` type.  `Uint128` amounts are
modelled as `Nat` (checked subtractions that panic in Rust are modelled by an
explicit `ContractError.Panic` branch), `Decimal` values as their integer
atomics with denominator `10 ^ 18`, `Timestamp` and block heights as `Nat`,
and `Addr` as `String` (`addr_validate` is modelled as the identity, which is
faithful for well-formed addresses).
-/

set_option maxRecDepth 10000

namespace AtlasLoan

/-! ### Injectivity of `Nat.repr`

The contract keys offers by `global_offer_index.to_string()`.  Freshness of
the key minted for a new offer rests on decimal representations of distinct
naturals being distinct, which we prove here once and for all. -/

/-- Decode a list of decimal digit characters back into a natural number. -/
def decodeDigits (l : List Char) : Nat :=
  l.foldl (fun a c => a * 10 + (c.toNat - 48)) 0

theorem decodeDigits_append (l : List Char) (c : Char) :
    decodeDigits (l ++ [c]) = 10 * decodeDigits l + (c.toNat - 48) := by
  simp [decodeDigits, List.foldl_append, Nat.mul_comm]

theorem digitChar_toNat (d : Nat) (h : d < 10) : (Nat.digitChar d).toNat = d + 48 := by
  interval_cases d <;> rfl

theorem toDigitsCore_shift (f : Nat) :
    ∀ (n : Nat) (l : List Char),
      Nat.toDigitsCore 10 f n l = Nat.toDigitsCore 10 f n [] ++ l := by
  induction f with
  | zero => intro n l; simp [Nat.toDigitsCore]
  | succ f ih =>
    intro n l
    simp only [Nat.toDigitsCore]
    by_cases h : n / 10 = 0
    · simp [h]
    · simp only [h, if_false]
      rw [ih (n / 10) (Nat.digitChar (n % 10) :: l),
        ih (n / 10) [Nat.digitChar (n % 10)]]
      simp

theorem decode_toDigitsCore (f : Nat) :
    ∀ n : Nat, n < f → decodeDigits (Nat.toDigitsCore 10 f n []) = n := by
  induction f with
  | zero => intro n h; omega
  | succ f ih =>
    intro n hn
    simp only [Nat.toDigitsCore]
    by_cases h : n / 10 = 0
    · have h10 : n < 10 := by omega
      simp only [h, if_true]
      have : n % 10 = n := Nat.mod_eq_of_lt h10
      simp [decodeDigits, digitChar_toNat (n % 10) (Nat.mod_lt _ (by omega))]
      omega
    · simp only [h, if_false]
      rw [toDigitsCore_shift f (n / 10) [Nat.digitChar (n % 10)]]
      rw [decodeDigits_append]
      have hlt : n / 10 < f := by
        have h1 : 0 < n / 10 := Nat.pos_of_ne_zero h
        have h2 : n / 10 < n := Nat.div_lt_self (by omega) (by omega)
        omega
      rw [ih (n / 10) hlt, digitChar_toNat (n % 10) (Nat.mod_lt _ (by omega))]
      omega

theorem decode_repr (n : Nat) : decodeDigits (Nat.toDigits 10 n) = n := by
  unfold Nat.toDigits
  exact decode_toDigitsCore (n + 1) n (Nat.lt_succ_self n)

theorem natRepr_injective : Function.Injective Nat.repr := by
  intro a b h
  unfold Nat.repr at h
  have hl : Nat.toDigits 10 a = Nat.toDigits 10 b := by
    have := congrArg String.data h
    simpa [List.asString] using this
  have := congrArg decodeDigits hl
  rwa [decode_repr, decode_repr] at this

/-! ### Association-list storage maps

`cw-storage-plus` `Map`/`IndexedMap` saves overwrite the value at a key and
reads return the stored value, modelled by `mapGet`/`mapSet` below. -/

def mapGet {α β : Type} [DecidableEq α] : List (α × β) → α → Option β
  | [], _ => none
  | (k, v) :: t, k' => if k = k' then some v else mapGet t k'

def mapSet {α β : Type} [DecidableEq α] : List (α × β) → α → β → List (α × β)
  | [], k, v => [(k, v)]
  | (k0, v0) :: t, k, v => if k0 = k then (k, v) :: t else (k0, v0) :: mapSet t k v

theorem mapGet_set_self {α β : Type} [DecidableEq α] (l : List (α × β)) (k : α) (v : β) :
    mapGet (mapSet l k v) k = some v := by
  induction l with
  | nil => simp [mapGet, mapSet]
  | cons p t ih =>
    obtain ⟨k0, v0⟩ := p
    by_cases h : k0 = k
    · simp [mapSet, mapGet, h]
    · simp [mapSet, mapGet, h, ih]

theorem mapGet_set_ne {α β : Type} [DecidableEq α] (l : List (α × β)) (k k' : α) (v : β)
    (h : k ≠ k') : mapGet (mapSet l k v) k' = mapGet l k' := by
  induction l with
  | nil => simp [mapGet, mapSet, h]
  | cons p t ih =>
    obtain ⟨k0, v0⟩ := p
    by_cases h0 : k0 = k
    · subst h0
      simp [mapSet, mapGet, h]
    · simp only [mapSet, if_neg h0]
      by_cases h1 : k0 = k'
      · simp [mapGet, h1]
      · simp [mapGet, h1, ih]

theorem mapGet_set_cases {α β : Type} [DecidableEq α] (l : List (α × β)) (k k' : α) (v w : β)
    (h : mapGet (mapSet l k v) k' = some w) :
    (k' = k ∧ w = v) ∨ (k' ≠ k ∧ mapGet l k' = some w) := by
  by_cases hk : k' = k
  · subst hk
    rw [mapGet_set_self] at h
    exact Or.inl ⟨rfl, (Option.some.injEq _ _ ▸ h).symm⟩
  · right
    rw [mapGet_set_ne l k k' v (fun hh => hk hh.symm)] at h
    exact ⟨hk, h⟩

theorem mapGet_mem {α β : Type} [DecidableEq α] (l : List (α × β)) (k : α) (v : β)
    (h : mapGet l k = some v) : (k, v) ∈ l := by
  induction l with
  | nil => simp [mapGet] at h
  | cons p t ih =>
    obtain ⟨k0, v0⟩ := p
    simp only [mapGet] at h
    by_cases h0 : k0 = k
    · rw [if_pos h0] at h
      have hv : v0 = v := Option.some.injEq _ _ ▸ h
      exact h0 ▸ hv ▸ List.mem_cons_self _ _
    · rw [if_neg h0] at h
      exact List.mem_cons_of_mem _ (ih h)

/-- The keys of an association list are pairwise distinct. -/
def keysNodup {α β : Type} (l : List (α × β)) : Prop := (l.map Prod.fst).Nodup

theorem keys_mapSet_subset {α β : Type} [DecidableEq α] (l : List (α × β)) (k : α) (v : β) :
    ∀ x ∈ (mapSet l k v).map Prod.fst, x = k ∨ x ∈ l.map Prod.fst := by
  induction l with
  | nil =>
    intro x hx
    simp [mapSet] at hx
    exact Or.inl hx
  | cons p t ih =>
    obtain ⟨k0, v0⟩ := p
    intro x hx
    by_cases h0 : k0 = k
    · simp only [mapSet, if_pos h0, List.map_cons] at hx
      rcases List.mem_cons.1 hx with h1 | h2
      · exact Or.inl h1
      · exact Or.inr (by simp [h2])
    · simp only [mapSet, if_neg h0, List.map_cons] at hx
      rcases List.mem_cons.1 hx with h1 | h2
      · exact Or.inr (by simp [h1])
      · rcases ih x h2 with h3 | h3
        · exact Or.inl h3
        · exact Or.inr (by simp [h3])

theorem keysNodup_set {α β : Type} [DecidableEq α] (l : List (α × β)) (k : α) (v : β)
    (h : keysNodup l) : keysNodup (mapSet l k v) := by
  induction l with
  | nil => simp [mapSet, keysNodup]
  | cons p t ih =>
    obtain ⟨k0, v0⟩ := p
    simp only [keysNodup, List.map_cons, List.nodup_cons] at h
    by_cases h0 : k0 = k
    · subst h0
      have heq : mapSet ((k0, v0) :: t) k0 v = (k0, v) :: t := by simp [mapSet]
      rw [heq]
      simp only [keysNodup, List.map_cons, List.nodup_cons]
      exact ⟨h.1, h.2⟩
    · simp only [mapSet, if_neg h0]
      simp only [keysNodup, List.map_cons, List.nodup_cons]
      refine ⟨?_, ih h.2⟩
      intro hmem
      rcases keys_mapSet_subset t k v k0 hmem with h1 | h1
      · exact h0 h1
      · exact h.1 h1

theorem mem_mapGet {α β : Type} [DecidableEq α] (l : List (α × β)) (k : α) (v : β)
    (hnd : keysNodup l) (h : (k, v) ∈ l) : mapGet l k = some v := by
  induction l with
  | nil => simp at h
  | cons p t ih =>
    obtain ⟨k0, v0⟩ := p
    simp only [keysNodup, List.map_cons, List.nodup_cons] at hnd
    rcases List.mem_cons.1 h with h1 | h2
    · obtain ⟨hk, hv⟩ := Prod.mk.injEq .. ▸ h1
      simp [mapGet, hk.symm, hv]
    · by_cases h0 : k0 = k
      · subst h0
        exact absurd (List.mem_map.2 ⟨(k0, v), h2, rfl⟩) hnd.1
      · simp only [mapGet, if_neg h0]
        exact ih hnd.2 h2

theorem countP_le_one_of_key {α β : Type} [DecidableEq α] (l : List (α × β))
    (P : α × β → Bool) (k : α) (hnd : keysNodup l)
    (hkey : ∀ p ∈ l, P p = true → p.1 = k) : l.countP P ≤ 1 := by
  induction l with
  | nil => simp
  | cons p t ih =>
    obtain ⟨k0, v0⟩ := p
    simp only [keysNodup, List.map_cons, List.nodup_cons] at hnd
    by_cases hp : P (k0, v0) = true
    · have hk0 : k0 = k := hkey (k0, v0) (List.mem_cons_self _ _) hp
      have hzero : t.countP P = 0 := by
        rw [List.countP_eq_zero]
        intro q hq hPq
        have : q.1 = k := hkey q (List.mem_cons_of_mem _ hq) hPq
        exact absurd (List.mem_map.2 ⟨q, hq, this.trans hk0.symm⟩) hnd.1
      rw [List.countP_cons_of_pos _ _ hp, hzero]
    · rw [List.countP_cons_of_neg _ _ (by simpa using hp)]
      exact ih hnd.2 (fun q hq hPq => hkey q (List.mem_cons_of_mem _ hq) hPq)

/-! ### Data model (`packages/nft-loans/src/state.rs`, `packages/utils/src/state.rs`) -/

/-- A fungible coin: `cosmwasm_std::Coin` with the `Uint128` amount as `Nat`. -/
structure Coin where
  denom : String
  amount : Nat
  deriving DecidableEq, Repr

/-- `utils::state::AssetInfo`: the non-fungible (or fungible) asset references a
collateral may list.  The audited loan contract only ever settles
`Cw721Coin`/`Sg721Token`; the other variants are rejected at settlement. -/
inductive AssetInfo where
  | Cw721Coin (address : String) (token_id : String)
  | Sg721Token (address : String) (token_id : String)
  | Cw1155Coin (address : String) (token_id : String) (value : Nat)
  | CoinAsset (coin : Coin)
  | Cw20Coin (address : String) (amount : Nat)
  deriving DecidableEq, Repr

/-- `LoanTerms`: principal coin, interest amount (same denom), duration. -/
structure LoanTerms where
  principle : Coin
  interest : Nat
  duration_in_blocks : Nat
  deriving DecidableEq, Repr

inductive LoanState where
  | Published
  | Started
  | Defaulted
  | Ended
  | AssetWithdrawn
  deriving DecidableEq, Repr

inductive OfferState where
  | Published
  | Accepted
  | Refused
  | Cancelled
  deriving DecidableEq, Repr

/-- `CollateralInfo` (timestamps as `Nat`). -/
structure CollateralInfo where
  terms : Option LoanTerms
  associated_assets : List AssetInfo
  list_date : Nat
  state : LoanState
  offer_amount : Nat
  active_offer : Option String
  start_block : Option Nat
  comment : Option String
  loan_preview : Option AssetInfo
  deriving DecidableEq, Repr

/-- `OfferInfo` (addresses as `String`). -/
structure OfferInfo where
  lender : String
  borrower : String
  loan_id : Nat
  offer_id : Nat
  terms : LoanTerms
  state : OfferState
  list_date : Nat
  deposited_funds : Option Coin
  comment : Option String
  deriving DecidableEq, Repr

/-- `ContractInfo`: the fee rate is a `Decimal`, modelled by its atomics
(`fee_rate / 10^18` is the real rate); `set_fee_rate` rejects rates `≥ 1`. -/
structure ContractInfo where
  name : String
  owner : String
  new_owner : Option String
  fee_distributor : String
  fee_rate : Nat
  global_offer_index : Nat
  deriving DecidableEq, Repr

/-- The whole contract storage: `CONTRACT_INFO`, `COLLATERAL_INFO` keyed by
`(borrower, loan_id)`, `BORROWER_INFO` (only `last_collateral_id` is stored)
and the `lender_offers` indexed map keyed by the stringified global id. -/
structure Storage where
  contract_info : ContractInfo
  collaterals : List ((String × Nat) × CollateralInfo)
  borrowers : List (String × Nat)
  offers : List (String × OfferInfo)
  deriving DecidableEq, Repr

structure Env where
  block_height : Nat
  block_time : Nat
  contract_addr : String
  deriving DecidableEq, Repr

structure MessageInfo where
  sender : String
  funds : List Coin
  deriving DecidableEq, Repr

/-- `ContractError` (plus `Panic` for Rust arithmetic panics, which abort the
transaction exactly like an error return). -/
inductive ContractError where
  | Std (msg : String)
  | StdNotFound
  | Unauthorized
  | NoAssets
  | AssetNotInLoan
  | LoanNotFound
  | NotWithdrawable
  | NotModifiable
  | NotAcceptable
  | NotCounterable
  | NotRefusable
  | MultipleCoins
  | FundsDontMatchTerms
  | FundsDontMatchTermsAndPrinciple (expected : Nat) (got : Nat)
  | WrongLoanState (state : LoanState)
  | WrongOfferState (state : OfferState)
  | CantChangeOfferState (src : OfferState) (dst : OfferState)
  | NoTermsSpecified
  | NoFundsToWithdraw
  | OfferNotFound
  | LoanAlreadyDefaulted
  | WrongAssetDeposited
  | SenderNotOwner
  | Unreachable
  | Panic
  deriving DecidableEq, Repr

/-- The outbound CosmWasm messages the loan contract emits. -/
inductive LoanMsg where
  | BankSend (to_addr : String) (amount : List Coin)
  | Cw721Transfer (nft_addr : String) (recipient : String) (token_id : String)
  | Sg721Transfer (nft_addr : String) (recipient : String) (token_id : String)
  | DepositFees (distributor : String) (addresses : List String) (funds : List Coin)
  deriving DecidableEq, Repr

/-- There are 10^18 `Decimal` atomics in one unit. -/
def E18 : Nat := 10 ^ 18

/-! ### State guard helpers (`contracts/nft-loans-non-custodial/src/state.rs`) -/

def is_collateral_withdrawable (c : CollateralInfo) : Except ContractError Unit :=
  match c.state with
  | .Published => .ok ()
  | _ => .error .NotWithdrawable

def is_loan_modifiable (c : CollateralInfo) : Except ContractError Unit :=
  match c.state with
  | .Published => .ok ()
  | _ => .error .NotModifiable

def is_loan_acceptable (c : CollateralInfo) : Except ContractError Unit :=
  match c.state with
  | .Published => .ok ()
  | _ => .error .NotAcceptable

def is_loan_counterable (c : CollateralInfo) : Except ContractError Unit :=
  match c.state with
  | .Published => .ok ()
  | _ => .error .NotCounterable

def is_offer_refusable (c : CollateralInfo) (o : OfferInfo) : Except ContractError Unit :=
  match is_loan_counterable c with
  | .error _ => .error .NotRefusable
  | .ok _ =>
    match o.state with
    | .Published => .ok ()
    | _ => .error .NotRefusable

/-- `get_actual_state`: the derived ("soft-refusal") view of an offer's state:
a stored `Published` offer whose collateral left `Published` reads as
`Refused`; every other stored state is returned unchanged. -/
def get_actual_state (o : OfferInfo) (s : Storage) : Except ContractError OfferState :=
  match mapGet s.collaterals (o.borrower, o.loan_id) with
  | none => .error .StdNotFound
  | some c =>
    .ok (match o.state with
      | .Published => if c.state ≠ .Published then .Refused else .Published
      | st => st)

/-- `get_offer`: loads the stored offer and applies the derived-state view.
It takes the storage immutably; reads never mutate it. -/
def get_offer (s : Storage) (global_offer_id : String) : Except ContractError OfferInfo :=
  match mapGet s.offers global_offer_id with
  | none => .error (.Std "invalid offer")
  | some o =>
    match get_actual_state o s with
    | .error e => .error e
    | .ok st => .ok { o with state := st }

def get_active_loan (s : Storage) (c : CollateralInfo) : Except ContractError OfferInfo :=
  match c.active_offer with
  | none => .error .OfferNotFound
  | some gid => get_offer s gid

/-- `is_loan_defaulted`: `Started` loans are defaulted strictly after
`start_block + duration_in_blocks`; `Defaulted` loans stay defaulted; every
other state is a state-guard violation.  `start_block.unwrap()` panics when
`start_block` is `None`. -/
def is_loan_defaulted (s : Storage) (env : Env) (c : CollateralInfo) :
    Except ContractError Unit :=
  match get_active_loan s c with
  | .error e => .error e
  | .ok offer =>
    match c.state with
    | .Started =>
      match c.start_block with
      | none => .error .Panic
      | some sb =>
        if sb + offer.terms.duration_in_blocks < env.block_height then .ok ()
        else .error (.WrongLoanState .Started)
    | .Defaulted => .ok ()
    | st => .error (.WrongLoanState st)

def exceptIsOk {ε α : Type} : Except ε α → Bool
  | .ok _ => true
  | .error _ => false

def can_repay_loan (s : Storage) (env : Env) (c : CollateralInfo) :
    Except ContractError Unit :=
  if exceptIsOk (is_loan_defaulted s env c) then .error (.WrongLoanState .Defaulted)
  else if c.state ≠ .Started then .error (.WrongLoanState c.state)
  else .ok ()

def is_lender (s : Storage) (lender : String) (global_offer_id : String) :
    Except ContractError OfferInfo :=
  match get_offer s global_offer_id with
  | .error e => .error e
  | .ok o => if lender ≠ o.lender then .error .Unauthorized else .ok o

def is_offer_borrower (s : Storage) (borrower : String) (global_offer_id : String) :
    Except ContractError OfferInfo :=
  match get_offer s global_offer_id with
  | .error e => .error e
  | .ok o => if borrower ≠ o.borrower then .error .Unauthorized else .ok o

def is_active_lender (s : Storage) (lender : String) (c : CollateralInfo) :
    Except ContractError OfferInfo :=
  match get_active_loan s c with
  | .error e => .error e
  | .ok o => if lender ≠ o.lender then .error .Unauthorized else .ok o

/-! ### Execute entry points (`contracts/nft-loan/src/execute.rs`)

Each function returns the updated storage together with the outbound message
list of the `Response`; an error leaves the storage untouched (the host chain
rolls back every write of a failed call, so only the success value matters). -/

/-- The `BORROWER_INFO.update` closure: a borrower's first collateral gets
id `0` (`BorrowerInfo::default()`), later ones `last_collateral_id + 1`. -/
def next_loan_id (s : Storage) (borrower : String) : Nat :=
  match mapGet s.borrowers borrower with
  | some last => last + 1
  | none => 0

def deposit_collaterals (s : Storage) (env : Env) (info : MessageInfo)
    (tokens : List AssetInfo) (terms : Option LoanTerms) (comment : Option String)
    (loan_preview : Option AssetInfo) : Except ContractError (Storage × List LoanMsg) :=
  let borrower := info.sender
  if tokens = [] then .error .NoAssets
  else
    let loan_id := next_loan_id s borrower
    if (match loan_preview with
        | some preview => tokens.contains preview
        | none => true) then
      .ok ({ s with
          borrowers := mapSet s.borrowers borrower loan_id,
          collaterals := (mapSet s.collaterals (borrower, loan_id)
            { terms := terms, associated_assets := tokens, list_date := env.block_time,
              state := .Published, offer_amount := 0, active_offer := none,
              start_block := none, comment := comment, loan_preview := loan_preview }) }, [])
    else .error .AssetNotInLoan

/-- The partial field update applied by `modify_collaterals`: only supplied
fields change, the preview is overwritten only when supplied, and the listing
timestamp is refreshed. -/
def modified_collateral (c : CollateralInfo) (env : Env) (terms : Option LoanTerms)
    (comment : Option String) (loan_preview : Option AssetInfo) : CollateralInfo :=
  let c1 := if terms.isSome then { c with terms := terms } else c
  let c2 := if comment.isSome then { c1 with comment := comment } else c1
  let c3 := match loan_preview with
    | some _ => { c2 with loan_preview := loan_preview }
    | none => c2
  { c3 with list_date := env.block_time }

def modify_collaterals (s : Storage) (env : Env) (info : MessageInfo) (loan_id : Nat)
    (terms : Option LoanTerms) (comment : Option String) (loan_preview : Option AssetInfo) :
    Except ContractError (Storage × List LoanMsg) :=
  let borrower := info.sender
  match mapGet s.collaterals (borrower, loan_id) with
  | none => .error .LoanNotFound
  | some c =>
    match is_loan_modifiable c with
    | .error e => .error e
    | .ok _ =>
      match loan_preview with
      | some preview =>
        if c.associated_assets.contains preview then
          .ok ({ s with collaterals := (mapSet s.collaterals (borrower, loan_id)
              (modified_collateral c env terms comment loan_preview)) }, [])
        else .error .AssetNotInLoan
      | none =>
        .ok ({ s with collaterals := (mapSet s.collaterals (borrower, loan_id)
            (modified_collateral c env terms comment loan_preview)) }, [])

def withdraw_collateral (s : Storage) (info : MessageInfo) (loan_id : Nat) :
    Except ContractError (Storage × List LoanMsg) :=
  let borrower := info.sender
  match mapGet s.collaterals (borrower, loan_id) with
  | none => .error .StdNotFound
  | some c =>
    match is_collateral_withdrawable c with
    | .error e => .error e
    | .ok _ =>
      .ok ({ s with collaterals := (mapSet s.collaterals (borrower, loan_id)
          { c with state := .AssetWithdrawn }) }, [])

/-- `_make_offer_raw`: guards, then increments the collateral's offer counter
and the global offer index and stores the new `Published` offer under the
stringified global index. -/
def make_offer_raw (s : Storage) (env : Env) (info : MessageInfo) (borrower : String)
    (loan_id : Nat) (terms : LoanTerms) (comment : Option String) :
    Except ContractError (Storage × String × Nat) :=
  match mapGet s.collaterals (borrower, loan_id) with
  | none => .error .StdNotFound
  | some c =>
    match is_loan_counterable c with
    | .error e => .error e
    | .ok _ =>
      match info.funds with
      | [coin] =>
        if terms.principle ≠ coin then .error .FundsDontMatchTerms
        else
          let c2 := { c with offer_amount := c.offer_amount + 1 }
          let idx := s.contract_info.global_offer_index + 1
          let offer : OfferInfo :=
            { lender := info.sender, borrower := borrower, loan_id := loan_id,
              offer_id := c2.offer_amount, terms := terms, state := .Published,
              list_date := env.block_time, deposited_funds := some terms.principle,
              comment := comment }
          .ok ({ s with
              collaterals := mapSet s.collaterals (borrower, loan_id) c2,
              offers := mapSet s.offers (Nat.repr idx) offer,
              contract_info := { s.contract_info with global_offer_index := idx } },
            Nat.repr idx, c2.offer_amount)
      | _ => .error .MultipleCoins

def make_offer (s : Storage) (env : Env) (info : MessageInfo) (borrower : String)
    (loan_id : Nat) (terms : LoanTerms) (comment : Option String) :
    Except ContractError (Storage × List LoanMsg) :=
  match make_offer_raw s env info borrower loan_id terms comment with
  | .error e => .error e
  | .ok (s2, _, _) => .ok (s2, [])

/-- `_withdraw_offer_unsafe`: `BankMsg::Send` of the escrowed funds, failing
with `NoFundsToWithdraw` when `deposited_funds` was already cleared. -/
def withdraw_offer_unsafe (recipient : String) (o : OfferInfo) :
    Except ContractError LoanMsg :=
  match o.deposited_funds with
  | none => .error .NoFundsToWithdraw
  | some funds => .ok (.BankSend recipient [funds])

/-- The external "who owns this token" query: `is_nft_owner` re-checks, right
before emitting a transfer, that the borrower still owns the asset. -/
def is_nft_owner (ownerOf : String → String → Option String) (sender : String)
    (nft_addr : String) (token_id : String) : Except ContractError Unit :=
  match ownerOf nft_addr token_id with
  | none => .error (.Std "owner query failed")
  | some w => if w ≠ sender then .error .SenderNotOwner else .ok ()

/-- The per-asset custody-transfer messages emitted at acceptance (with the
ownership re-check); assets that are neither cw721 nor sg721 are rejected. -/
def accept_asset_msgs (ownerOf : String → String → Option String) (borrower : String)
    (env : Env) : List AssetInfo → Except ContractError (List LoanMsg)
  | [] => .ok []
  | asset :: rest =>
    match asset with
    | .Cw721Coin address token_id =>
      match is_nft_owner ownerOf borrower address token_id with
      | .error e => .error e
      | .ok _ =>
        match accept_asset_msgs ownerOf borrower env rest with
        | .error e => .error e
        | .ok msgs => .ok (.Cw721Transfer address env.contract_addr token_id :: msgs)
    | .Sg721Token address token_id =>
      match is_nft_owner ownerOf borrower address token_id with
      | .error e => .error e
      | .ok _ =>
        match accept_asset_msgs ownerOf borrower env rest with
        | .error e => .error e
        | .ok msgs => .ok (.Sg721Transfer address env.contract_addr token_id :: msgs)
    | _ => .error .WrongAssetDeposited

/-- `_accept_offer_raw`: the internal acceptance routine shared by
`accept_loan` and `accept_offer`. -/
def accept_offer_raw (ownerOf : String → String → Option String) (s : Storage)
    (env : Env) (global_offer_id : String) : Except ContractError (Storage × List LoanMsg) :=
  match get_offer s global_offer_id with
  | .error e => .error e
  | .ok offer0 =>
    match mapGet s.collaterals (offer0.borrower, offer0.loan_id) with
    | none => .error .StdNotFound
    | some c =>
      match is_loan_acceptable c with
      | .error e => .error e
      | .ok _ =>
        if offer0.state = .Published then
          let c2 := { c with
            state := .Started
            start_block := some env.block_height
            active_offer := some global_offer_id }
          let offer2 := { offer0 with state := .Accepted }
          match withdraw_offer_unsafe offer0.borrower offer2 with
          | .error e => .error e
          | .ok fund_msg =>
            match accept_asset_msgs ownerOf offer0.borrower env c2.associated_assets with
            | .error e => .error e
            | .ok asset_msgs =>
              .ok ({ s with
                  collaterals := mapSet s.collaterals (offer0.borrower, offer0.loan_id) c2,
                  offers := mapSet s.offers global_offer_id offer2 },
                fund_msg :: asset_msgs)
        else .error (.WrongOfferState offer0.state)

def accept_offer (ownerOf : String → String → Option String) (s : Storage) (env : Env)
    (info : MessageInfo) (global_offer_id : String) :
    Except ContractError (Storage × List LoanMsg) :=
  match is_offer_borrower s info.sender global_offer_id with
  | .error e => .error e
  | .ok _ => accept_offer_raw ownerOf s env global_offer_id

def accept_loan (ownerOf : String → String → Option String) (s : Storage) (env : Env)
    (info : MessageInfo) (borrower : String) (loan_id : Nat) (comment : Option String) :
    Except ContractError (Storage × List LoanMsg) :=
  match mapGet s.collaterals (borrower, loan_id) with
  | none => .error .StdNotFound
  | some c =>
    match c.terms with
    | none => .error .NoTermsSpecified
    | some terms =>
      match make_offer_raw s env info borrower loan_id terms comment with
      | .error e => .error e
      | .ok (s1, gid, _) => accept_offer_raw ownerOf s1 env gid

def cancel_offer (s : Storage) (info : MessageInfo) (global_offer_id : String) :
    Except ContractError (Storage × List LoanMsg) :=
  let lender := info.sender
  match is_lender s lender global_offer_id with
  | .error e => .error e
  | .ok o =>
    if o.state ≠ .Published then .error (.CantChangeOfferState o.state .Cancelled)
    else
      match mapGet s.collaterals (o.borrower, o.loan_id) with
      | none => .error .StdNotFound
      | some c =>
        match is_loan_modifiable c with
        | .error e => .error e
        | .ok _ =>
          match withdraw_offer_unsafe lender o with
          | .error e => .error e
          | .ok msg =>
            .ok ({ s with offers := (mapSet s.offers global_offer_id
                { o with state := .Cancelled, deposited_funds := none }) }, [msg])

def refuse_offer (s : Storage) (info : MessageInfo) (global_offer_id : String) :
    Except ContractError (Storage × List LoanMsg) :=
  let borrower := info.sender
  match is_offer_borrower s borrower global_offer_id with
  | .error e => .error e
  | .ok o =>
    match mapGet s.collaterals (o.borrower, o.loan_id) with
    | none => .error .StdNotFound
    | some c =>
      match is_offer_refusable c o with
      | .error e => .error e
      | .ok _ =>
        .ok ({ s with offers := (mapSet s.offers global_offer_id
            { o with state := .Refused }) }, [])

def withdraw_refused_offer (s : Storage) (info : MessageInfo) (global_offer_id : String) :
    Except ContractError (Storage × List LoanMsg) :=
  let lender := info.sender
  match is_lender s lender global_offer_id with
  | .error e => .error e
  | .ok o =>
    if o.state ≠ .Refused then .error .NotWithdrawable
    else
      match withdraw_offer_unsafe lender o with
      | .error e => .error e
      | .ok msg =>
        .ok ({ s with offers := (mapSet s.offers global_offer_id
            { o with deposited_funds := none }) }, [msg])

/-- `_withdraw_asset`: a plain asset-transfer message per collateral asset. -/
def withdraw_asset_msg (asset : AssetInfo) (recipient : String) :
    Except ContractError LoanMsg :=
  match asset with
  | .Sg721Token address token_id => .ok (.Sg721Transfer address recipient token_id)
  | .Cw721Coin address token_id => .ok (.Cw721Transfer address recipient token_id)
  | _ => .error (.Std "msg")

def withdraw_asset_step (recipient : String) (asset : AssetInfo)
    (acc : Except ContractError (List LoanMsg)) : Except ContractError (List LoanMsg) :=
  match withdraw_asset_msg asset recipient with
  | .error e => .error e
  | .ok msg =>
    match acc with
    | .error e => .error e
    | .ok msgs => .ok (msg :: msgs)

/-- `_withdraw_loan`: transfer every collateral asset to `recipient`. -/
def withdraw_loan_msgs (c : CollateralInfo) (recipient : String) :
    Except ContractError (List LoanMsg) :=
  c.associated_assets.foldr (withdraw_asset_step recipient) (.ok [])

/-- The address list reported to the fee distributor. -/
def collateral_addresses : List AssetInfo → Except ContractError (List String)
  | [] => .ok []
  | .Sg721Token address _ :: rest =>
    match collateral_addresses rest with
    | .error e => .error e
    | .ok l => .ok (address :: l)
  | .Cw721Coin address _ :: rest =>
    match collateral_addresses rest with
    | .error e => .error e
    | .ok l => .ok (address :: l)
  | _ :: _ => .error .Unreachable

/-- `repay_borrowed_funds`: `lender_payback = principle + interest * (1 - fee_rate)`
(with the `Uint128 * Decimal` product floored) and the fee distributor gets
the whole remainder of the sent amount; zero transfers are omitted. -/
def repay_borrowed_funds (s : Storage) (env : Env) (info : MessageInfo) (loan_id : Nat) :
    Except ContractError (Storage × List LoanMsg) :=
  let ci := s.contract_info
  let borrower := info.sender
  match mapGet s.collaterals (borrower, loan_id) with
  | none => .error .StdNotFound
  | some c =>
    match can_repay_loan s env c with
    | .error e => .error e
    | .ok _ =>
      match get_active_loan s c with
      | .error e => .error e
      | .ok offer_info =>
        let interests := offer_info.terms.interest
        match info.funds with
        | [coin] =>
          if offer_info.terms.principle.denom ≠ coin.denom then
            .error .FundsDontMatchTerms
          else if coin.amount < offer_info.terms.principle.amount + interests then
            .error (.FundsDontMatchTermsAndPrinciple
              (offer_info.terms.principle.amount + interests) coin.amount)
          else
            let c2 := { c with state := .Ended }
            if E18 < ci.fee_rate then .error .Panic
            else
              let lender_payback :=
                offer_info.terms.principle.amount + interests * (E18 - ci.fee_rate) / E18
              if coin.amount < lender_payback then .error .Panic
              else
                let fee_depositor_payback := coin.amount - lender_payback
                match collateral_addresses c2.associated_assets with
                | .error e => .error e
                | .ok addresses =>
                  match withdraw_loan_msgs c2 borrower with
                  | .error e => .error e
                  | .ok asset_msgs =>
                    .ok ({ s with collaterals := mapSet s.collaterals (borrower, loan_id) c2 },
                      (if 0 < lender_payback then
                        [LoanMsg.BankSend offer_info.lender [⟨coin.denom, lender_payback⟩]]
                      else []) ++
                      asset_msgs ++
                      (if 0 < fee_depositor_payback then
                        [LoanMsg.DepositFees ci.fee_distributor addresses
                          [⟨coin.denom, fee_depositor_payback⟩]]
                      else []))
        | _ => .error .MultipleCoins

def withdraw_defaulted_loan (s : Storage) (env : Env) (info : MessageInfo)
    (borrower : String) (loan_id : Nat) : Except ContractError (Storage × List LoanMsg) :=
  match mapGet s.collaterals (borrower, loan_id) with
  | none => .error .StdNotFound
  | some c =>
    match is_loan_defaulted s env c with
    | .error e => .error e
    | .ok _ =>
      match is_active_lender s info.sender c with
      | .error e => .error e
      | .ok offer =>
        if c.state = .Defaulted then .error .LoanAlreadyDefaulted
        else
          let c2 := { c with state := .Defaulted }
          match withdraw_loan_msgs c2 offer.lender with
          | .error e => .error e
          | .ok msgs =>
            .ok ({ s with collaterals := mapSet s.collaterals (borrower, loan_id) c2 }, msgs)

/-! ### The contract as a transition system

`Step s s2` holds when one successful execute call turns storage `s` into
`s2`; `Reachable` closes the freshly instantiated contract under `Step`. -/

inductive Step : Storage → Storage → Prop where
  | deposit {s : Storage} {env : Env} {info : MessageInfo} {tokens : List AssetInfo}
      {terms : Option LoanTerms} {comment : Option String} {preview : Option AssetInfo}
      {s2 : Storage} {msgs : List LoanMsg}
      (h : deposit_collaterals s env info tokens terms comment preview = .ok (s2, msgs)) :
      Step s s2
  | modify {s : Storage} {env : Env} {info : MessageInfo} {loan_id : Nat}
      {terms : Option LoanTerms} {comment : Option String} {preview : Option AssetInfo}
      {s2 : Storage} {msgs : List LoanMsg}
      (h : modify_collaterals s env info loan_id terms comment preview = .ok (s2, msgs)) :
      Step s s2
  | withdrawColl {s : Storage} {info : MessageInfo} {loan_id : Nat}
      {s2 : Storage} {msgs : List LoanMsg}
      (h : withdraw_collateral s info loan_id = .ok (s2, msgs)) : Step s s2
  | makeOffer {s : Storage} {env : Env} {info : MessageInfo} {borrower : String}
      {loan_id : Nat} {terms : LoanTerms} {comment : Option String}
      {s2 : Storage} {msgs : List LoanMsg}
      (h : make_offer s env info borrower loan_id terms comment = .ok (s2, msgs)) : Step s s2
  | acceptLoan {ownerOf : String → String → Option String} {s : Storage} {env : Env}
      {info : MessageInfo} {borrower : String} {loan_id : Nat} {comment : Option String}
      {s2 : Storage} {msgs : List LoanMsg}
      (h : accept_loan ownerOf s env info borrower loan_id comment = .ok (s2, msgs)) :
      Step s s2
  | acceptOffer {ownerOf : String → String → Option String} {s : Storage} {env : Env}
      {info : MessageInfo} {gid : String} {s2 : Storage} {msgs : List LoanMsg}
      (h : accept_offer ownerOf s env info gid = .ok (s2, msgs)) : Step s s2
  | cancelOffer {s : Storage} {info : MessageInfo} {gid : String}
      {s2 : Storage} {msgs : List LoanMsg}
      (h : cancel_offer s info gid = .ok (s2, msgs)) : Step s s2
  | refuseOffer {s : Storage} {info : MessageInfo} {gid : String}
      {s2 : Storage} {msgs : List LoanMsg}
      (h : refuse_offer s info gid = .ok (s2, msgs)) : Step s s2
  | withdrawRefused {s : Storage} {info : MessageInfo} {gid : String}
      {s2 : Storage} {msgs : List LoanMsg}
      (h : withdraw_refused_offer s info gid = .ok (s2, msgs)) : Step s s2
  | repay {s : Storage} {env : Env} {info : MessageInfo} {loan_id : Nat}
      {s2 : Storage} {msgs : List LoanMsg}
      (h : repay_borrowed_funds s env info loan_id = .ok (s2, msgs)) : Step s s2
  | withdrawDefaulted {s : Storage} {env : Env} {info : MessageInfo} {borrower : String}
      {loan_id : Nat} {s2 : Storage} {msgs : List LoanMsg}
      (h : withdraw_defaulted_loan s env info borrower loan_id = .ok (s2, msgs)) : Step s s2
  | admin {s : Storage} {ci : ContractInfo}
      (h : ci.global_offer_index = s.contract_info.global_offer_index) :
      Step s { s with contract_info := ci }

/-- Reachable contract storages: instantiation (`global_offer_index = 0`,
no collaterals, borrowers or offers) followed by any number of successful
execute calls; admin calls may rewrite the config but never touch the
global offer counter. -/
inductive Reachable : Storage → Prop where
  | init (ci : ContractInfo) (h : ci.global_offer_index = 0) :
      Reachable { contract_info := ci, collaterals := [], borrowers := [], offers := [] }
  | step {s s2 : Storage} (hr : Reachable s) (hs : Step s s2) : Reachable s2

/-- The "loan is (or was) running" states: exactly those in which the
collateral carries an accepted offer. -/
def activeTriple (st : LoanState) : Prop :=
  st = .Started ∨ st = .Ended ∨ st = .Defaulted

instance (st : LoanState) : Decidable (activeTriple st) := by
  unfold activeTriple; infer_instance

/-- The inductive invariant of the offer/collateral registries. -/
structure Inv (s : Storage) : Prop where
  idBound : ∀ gid o, mapGet s.offers gid = some o →
    ∃ n, 1 ≤ n ∧ n ≤ s.contract_info.global_offer_index ∧ gid = Nat.repr n
  seqBound : ∀ b lid c, mapGet s.collaterals (b, lid) = some c →
    ∃ last, mapGet s.borrowers b = some last ∧ lid ≤ last
  activeIff : ∀ b lid c, mapGet s.collaterals (b, lid) = some c →
    (activeTriple c.state ↔ c.active_offer ≠ none)
  fwd : ∀ b lid c gid, mapGet s.collaterals (b, lid) = some c → c.active_offer = some gid →
    ∃ o, mapGet s.offers gid = some o ∧ o.borrower = b ∧ o.loan_id = lid ∧
      o.state = .Accepted
  bwd : ∀ gid o, mapGet s.offers gid = some o → o.state = .Accepted →
    ∃ c, mapGet s.collaterals (o.borrower, o.loan_id) = some c ∧
      c.active_offer = some gid
  nodupOffers : keysNodup s.offers

/-! #### Facts about the derived offer state -/

/-- The pure derivation `effective_state(offer, collateral)` underlying
`get_actual_state`. -/
def derivedState (ost : OfferState) (cst : LoanState) : OfferState :=
  match ost with
  | .Published => if cst ≠ .Published then .Refused else .Published
  | st => st

theorem get_actual_state_eq (o : OfferInfo) (s : Storage) (c : CollateralInfo)
    (hc : mapGet s.collaterals (o.borrower, o.loan_id) = some c) :
    get_actual_state o s = .ok (derivedState o.state c.state) := by
  unfold get_actual_state derivedState
  rw [hc]

theorem get_offer_of_stored (s : Storage) (gid : String) (oS : OfferInfo) (c : CollateralInfo)
    (hos : mapGet s.offers gid = some oS)
    (hc : mapGet s.collaterals (oS.borrower, oS.loan_id) = some c) :
    get_offer s gid = .ok { oS with state := derivedState oS.state c.state } := by
  simp only [get_offer, hos]
  rw [get_actual_state_eq oS s c hc]

theorem get_offer_inv (s : Storage) (gid : String) (o0 : OfferInfo)
    (h : get_offer s gid = .ok o0) :
    ∃ oS c, mapGet s.offers gid = some oS ∧
      mapGet s.collaterals (oS.borrower, oS.loan_id) = some c ∧
      o0 = { oS with state := derivedState oS.state c.state } := by
  cases hos : mapGet s.offers gid with
  | none =>
    simp only [get_offer, hos] at h
    exact Except.noConfusion h
  | some oS =>
    cases hc : mapGet s.collaterals (oS.borrower, oS.loan_id) with
    | none =>
      simp only [get_offer, get_actual_state, hos, hc] at h
      exact Except.noConfusion h
    | some c =>
      rw [get_offer_of_stored s gid oS c hos hc] at h
      refine ⟨oS, c, rfl, hc, ?_⟩
      cases h
      rfl

theorem derivedState_published {ost : OfferState} {cst : LoanState}
    (h : derivedState ost cst = .Published) : ost = .Published ∧ cst = .Published := by
  cases ost <;> cases cst <;> simp_all [derivedState]

theorem derivedState_not_accepted {ost : OfferState} {cst : LoanState}
    (h : derivedState ost cst ≠ .Accepted) : ost ≠ .Accepted := by
  cases ost <;> cases cst <;> simp_all [derivedState]

theorem derivedState_refused {ost : OfferState} {cst : LoanState}
    (h : derivedState ost cst = .Refused) : ost = .Published ∨ ost = .Refused := by
  cases ost <;> cases cst <;> simp_all [derivedState]

/-! #### Generic preservation lemmas -/

/-- Overwriting a stored offer in place (same key, same collateral reference)
with a non-`Accepted` state, when the stored state was not `Accepted` either,
preserves the invariant. -/
theorem inv_set_offer (s : Storage) (gid : String) (oS o2 : OfferInfo)
    (hInv : Inv s) (hget : mapGet s.offers gid = some oS)
    (hS : oS.state ≠ .Accepted) (h2 : o2.state ≠ .Accepted) :
    Inv { s with offers := mapSet s.offers gid o2 } := by
  constructor
  · intro gid' o' h'
    rcases mapGet_set_cases _ _ _ _ _ h' with ⟨hk, hv⟩ | ⟨hne, hold⟩
    · rw [hk]
      exact hInv.idBound gid oS hget
    · exact hInv.idBound gid' o' hold
  · exact hInv.seqBound
  · exact hInv.activeIff
  · intro b lid c gid' hc hao
    obtain ⟨o, ho, hob, hol, hacc⟩ := hInv.fwd b lid c gid' hc hao
    by_cases hg : gid' = gid
    · rw [hg, hget] at ho
      cases ho
      exact absurd hacc hS
    · exact ⟨o, by rw [mapGet_set_ne _ _ _ _ (fun hh => hg hh.symm)]; exact ho,
        hob, hol, hacc⟩
  · intro gid' o' h' hacc
    rcases mapGet_set_cases _ _ _ _ _ h' with ⟨hk, hv⟩ | ⟨hne, hold⟩
    · rw [hv] at hacc
      exact absurd hacc h2
    · exact hInv.bwd gid' o' hold hacc
  · exact keysNodup_set _ _ _ hInv.nodupOffers

/-- Overwriting a stored collateral in place (same key, same `active_offer`,
the new state active exactly when the old one was) preserves the invariant. -/
theorem inv_set_coll (s : Storage) (b : String) (lid : Nat) (c c2 : CollateralInfo)
    (hInv : Inv s) (hget : mapGet s.collaterals (b, lid) = some c)
    (hao : c2.active_offer = c.active_offer)
    (hactive : activeTriple c2.state ↔ activeTriple c.state) :
    Inv { s with collaterals := mapSet s.collaterals (b, lid) c2 } := by
  constructor
  · exact hInv.idBound
  · intro b' lid' c' h'
    rcases mapGet_set_cases _ _ _ _ _ h' with ⟨hk, hv⟩ | ⟨hne, hold⟩
    · have hb' : b' = b := congrArg Prod.fst hk
      have hl' : lid' = lid := congrArg Prod.snd hk
      rw [hb', hl']
      exact hInv.seqBound b lid c hget
    · exact hInv.seqBound b' lid' c' hold
  · intro b' lid' c' h'
    rcases mapGet_set_cases _ _ _ _ _ h' with ⟨hk, hv⟩ | ⟨hne, hold⟩
    · rw [hv, hao, hactive]
      have hb' : b' = b := congrArg Prod.fst hk
      have hl' : lid' = lid := congrArg Prod.snd hk
      rw [hb', hl'] at h'
      exact hInv.activeIff b lid c hget
    · exact hInv.activeIff b' lid' c' hold
  · intro b' lid' c' gid' h' hao'
    rcases mapGet_set_cases _ _ _ _ _ h' with ⟨hk, hv⟩ | ⟨hne, hold⟩
    · have hb' : b' = b := congrArg Prod.fst hk
      have hl' : lid' = lid := congrArg Prod.snd hk
      rw [hb', hl']
      rw [hv, hao] at hao'
      exact hInv.fwd b lid c gid' hget hao'
    · exact hInv.fwd b' lid' c' gid' hold hao'
  · intro gid' o' h' hacc
    obtain ⟨c', hc', hao'⟩ := hInv.bwd gid' o' h' hacc
    by_cases hk : (o'.borrower, o'.loan_id) = (b, lid)
    · rw [hk, hget] at hc'
      cases hc'
      exact ⟨c2, by rw [hk, mapGet_set_self], by rw [hao]; exact hao'⟩
    · exact ⟨c', by rw [mapGet_set_ne _ _ _ _ (fun hh => hk hh.symm)]; exact hc', hao'⟩
  · exact hInv.nodupOffers

/-! #### Per-operation preservation -/

theorem inv_admin (s : Storage) (ci : ContractInfo) (hInv : Inv s)
    (h : ci.global_offer_index = s.contract_info.global_offer_index) :
    Inv { s with contract_info := ci } := by
  constructor
  · intro gid o hg
    obtain ⟨n, h1, h2, h3⟩ := hInv.idBound gid o hg
    exact ⟨n, h1, by rw [h]; exact h2, h3⟩
  · exact hInv.seqBound
  · exact hInv.activeIff
  · exact hInv.fwd
  · exact hInv.bwd
  · exact hInv.nodupOffers

theorem next_loan_id_gt (s : Storage) (b : String) (last : Nat)
    (h : mapGet s.borrowers b = some last) : last < next_loan_id s b := by
  unfold next_loan_id
  rw [h]
  exact Nat.lt_succ_self last

theorem inv_deposit {s : Storage} {env : Env} {info : MessageInfo} {tokens : List AssetInfo}
    {terms : Option LoanTerms} {comment : Option String} {preview : Option AssetInfo}
    {s2 : Storage} {msgs : List LoanMsg} (hInv : Inv s)
    (h : deposit_collaterals s env info tokens terms comment preview = .ok (s2, msgs)) :
    Inv s2 := by
  classical
  simp only [deposit_collaterals] at h
  split at h
  · exact Except.noConfusion h
  · split at h
    swap
    · exact Except.noConfusion h
    · rw [Except.ok.injEq, Prod.mk.injEq] at h
      obtain ⟨hs2, hmsgs⟩ := h
      subst hs2
      have hfresh : mapGet s.collaterals (info.sender, next_loan_id s info.sender) = none := by
        cases hcoll : mapGet s.collaterals (info.sender, next_loan_id s info.sender) with
        | none => rfl
        | some cOld =>
          exfalso
          obtain ⟨last, hlast, hle⟩ := hInv.seqBound _ _ cOld hcoll
          have := next_loan_id_gt s info.sender last hlast
          omega
      constructor
      · exact hInv.idBound
      · intro b' lid' c' h'
        rcases mapGet_set_cases _ _ _ _ _ h' with ⟨hk, hv⟩ | ⟨hne, hold⟩
        · have hb' : b' = info.sender := congrArg Prod.fst hk
          have hl' : lid' = next_loan_id s info.sender := congrArg Prod.snd hk
          rw [hb', hl']
          exact ⟨next_loan_id s info.sender, mapGet_set_self _ _ _, le_refl _⟩
        · obtain ⟨last, hlast, hle⟩ := hInv.seqBound b' lid' c' hold
          by_cases hbb : b' = info.sender
          · rw [hbb] at hlast ⊢
            refine ⟨next_loan_id s info.sender, mapGet_set_self _ _ _, ?_⟩
            have := next_loan_id_gt s info.sender last hlast
            omega
          · exact ⟨last, by rw [mapGet_set_ne _ _ _ _ (fun hh => hbb hh.symm)]; exact hlast,
              hle⟩
      · intro b' lid' c' h'
        rcases mapGet_set_cases _ _ _ _ _ h' with ⟨hk, hv⟩ | ⟨hne, hold⟩
        · rw [hv]
          simp [activeTriple]
        · exact hInv.activeIff b' lid' c' hold
      · intro b' lid' c' gid' h' hao'
        rcases mapGet_set_cases _ _ _ _ _ h' with ⟨hk, hv⟩ | ⟨hne, hold⟩
        · rw [hv] at hao'
          exact Option.noConfusion hao'
        · exact hInv.fwd b' lid' c' gid' hold hao'
      · intro gid' o' h' hacc
        obtain ⟨c', hc', hao'⟩ := hInv.bwd gid' o' h' hacc
        by_cases hk : (o'.borrower, o'.loan_id) = (info.sender, next_loan_id s info.sender)
        · rw [hk, hfresh] at hc'
          exact Option.noConfusion hc'
        · exact ⟨c', by rw [mapGet_set_ne _ _ _ _ (fun hh => hk hh.symm)]; exact hc', hao'⟩
      · exact hInv.nodupOffers

theorem modified_collateral_state (c : CollateralInfo) (env : Env) (terms : Option LoanTerms)
    (comment : Option String) (preview : Option AssetInfo) :
    (modified_collateral c env terms comment preview).state = c.state := by
  simp only [modified_collateral]
  split <;> split <;> split <;> rfl

theorem modified_collateral_active (c : CollateralInfo) (env : Env) (terms : Option LoanTerms)
    (comment : Option String) (preview : Option AssetInfo) :
    (modified_collateral c env terms comment preview).active_offer = c.active_offer := by
  simp only [modified_collateral]
  split <;> split <;> split <;> rfl

theorem inv_modify {s : Storage} {env : Env} {info : MessageInfo} {loan_id : Nat}
    {terms : Option LoanTerms} {comment : Option String} {preview : Option AssetInfo}
    {s2 : Storage} {msgs : List LoanMsg} (hInv : Inv s)
    (h : modify_collaterals s env info loan_id terms comment preview = .ok (s2, msgs)) :
    Inv s2 := by
  simp only [modify_collaterals] at h
  cases hc : mapGet s.collaterals (info.sender, loan_id) with
  | none =>
    rw [hc] at h
    exact Except.noConfusion h
  | some c =>
    rw [hc] at h
    cases hst : c.state with
    | Published =>
      simp only [is_loan_modifiable, hst] at h
      have happ : Inv { s with collaterals := (mapSet s.collaterals (info.sender, loan_id)
          (modified_collateral c env terms comment preview)) } := by
        apply inv_set_coll s info.sender loan_id c _ hInv hc
        · exact modified_collateral_active c env terms comment preview
        · rw [modified_collateral_state c env terms comment preview]
      split at h
      · split at h
        · rw [Except.ok.injEq, Prod.mk.injEq] at h
          obtain ⟨hs2, hmsgs⟩ := h
          subst hs2
          exact happ
        · exact Except.noConfusion h
      · rw [Except.ok.injEq, Prod.mk.injEq] at h
        obtain ⟨hs2, hmsgs⟩ := h
        subst hs2
        exact happ
    | Started => simp [is_loan_modifiable, hst] at h
    | Defaulted => simp [is_loan_modifiable, hst] at h
    | Ended => simp [is_loan_modifiable, hst] at h
    | AssetWithdrawn => simp [is_loan_modifiable, hst] at h

theorem inv_withdrawColl {s : Storage} {info : MessageInfo} {loan_id : Nat}
    {s2 : Storage} {msgs : List LoanMsg} (hInv : Inv s)
    (h : withdraw_collateral s info loan_id = .ok (s2, msgs)) : Inv s2 := by
  simp only [withdraw_collateral] at h
  cases hc : mapGet s.collaterals (info.sender, loan_id) with
  | none =>
    rw [hc] at h
    exact Except.noConfusion h
  | some c =>
    rw [hc] at h
    cases hst : c.state with
    | Published =>
      simp only [is_collateral_withdrawable, hst] at h
      rw [Except.ok.injEq, Prod.mk.injEq] at h
      obtain ⟨hs2, hmsgs⟩ := h
      subst hs2
      apply inv_set_coll s info.sender loan_id c _ hInv hc
      · rfl
      · rw [hst]
        simp [activeTriple]
    | Started => simp [is_collateral_withdrawable, hst] at h
    | Defaulted => simp [is_collateral_withdrawable, hst] at h
    | Ended => simp [is_collateral_withdrawable, hst] at h
    | AssetWithdrawn => simp [is_collateral_withdrawable, hst] at h

theorem active_offer_none {s : Storage} {b : String} {lid : Nat} {c : CollateralInfo}
    (hInv : Inv s) (hc : mapGet s.collaterals (b, lid) = some c)
    (hst : ¬ activeTriple c.state) : c.active_offer = none := by
  cases hao : c.active_offer with
  | none => rfl
  | some gid =>
    exfalso
    exact hst ((hInv.activeIff b lid c hc).2 (by rw [hao]; exact Option.noConfusion))

theorem offer_key_lt {s : Storage} {gid : String} {o : OfferInfo} (hInv : Inv s)
    (hg : mapGet s.offers gid = some o) :
    gid ≠ Nat.repr (s.contract_info.global_offer_index + 1) := by
  intro hcontra
  obtain ⟨n, h1, h2, h3⟩ := hInv.idBound gid o hg
  rw [h3] at hcontra
  have := natRepr_injective hcontra
  omega

theorem inv_make_raw {s : Storage} {env : Env} {info : MessageInfo} {borrower : String}
    {loan_id : Nat} {terms : LoanTerms} {comment : Option String}
    {s2 : Storage} {gid : String} {oid : Nat} (hInv : Inv s)
    (h : make_offer_raw s env info borrower loan_id terms comment = .ok (s2, gid, oid)) :
    Inv s2 := by
  simp only [make_offer_raw] at h
  cases hc : mapGet s.collaterals (borrower, loan_id) with
  | none =>
    rw [hc] at h
    exact Except.noConfusion h
  | some c =>
    rw [hc] at h
    cases hst : c.state with
    | Started => simp [is_loan_counterable, hst] at h
    | Defaulted => simp [is_loan_counterable, hst] at h
    | Ended => simp [is_loan_counterable, hst] at h
    | AssetWithdrawn => simp [is_loan_counterable, hst] at h
    | Published =>
      simp only [is_loan_counterable, hst] at h
      split at h
      all_goals try exact Except.noConfusion h
      split at h
      all_goals try exact Except.noConfusion h
      rw [Except.ok.injEq, Prod.mk.injEq] at h
      obtain ⟨hs2, hrest⟩ := h
      subst hs2
      have hnone : c.active_offer = none :=
        active_offer_none hInv hc (by rw [hst]; simp [activeTriple])
      constructor
      · intro gid' o' h'
        rcases mapGet_set_cases _ _ _ _ _ h' with ⟨hk, hv⟩ | ⟨hne, hold⟩
        · refine ⟨s.contract_info.global_offer_index + 1, by omega, ?_, hk⟩
          show s.contract_info.global_offer_index + 1 ≤ s.contract_info.global_offer_index + 1
          omega
        · obtain ⟨n, h1, h2, h3⟩ := hInv.idBound gid' o' hold
          refine ⟨n, h1, ?_, h3⟩
          show n ≤ s.contract_info.global_offer_index + 1
          omega
      · intro b' lid' c' h'
        rcases mapGet_set_cases _ _ _ _ _ h' with ⟨hk, hv⟩ | ⟨hne, hold⟩
        · have hb' : b' = borrower := congrArg Prod.fst hk
          have hl' : lid' = loan_id := congrArg Prod.snd hk
          rw [hb', hl']
          exact hInv.seqBound borrower loan_id c hc
        · exact hInv.seqBound b' lid' c' hold
      · intro b' lid' c' h'
        rcases mapGet_set_cases _ _ _ _ _ h' with ⟨hk, hv⟩ | ⟨hne, hold⟩
        · rw [hv]
          have hiff := hInv.activeIff borrower loan_id c hc
          rw [hst] at hiff
          simpa using hiff
        · exact hInv.activeIff b' lid' c' hold
      · intro b' lid' c' gid' h' hao'
        rcases mapGet_set_cases _ _ _ _ _ h' with ⟨hk, hv⟩ | ⟨hne, hold⟩
        · rw [hv] at hao'
          simp [hnone] at hao'
        · obtain ⟨o, ho, hob, hol, hacc⟩ := hInv.fwd b' lid' c' gid' hold hao'
          refine ⟨o, ?_, hob, hol, hacc⟩
          rw [mapGet_set_ne _ _ _ _ (fun hh => offer_key_lt hInv ho hh.symm)]
          exact ho
      · intro gid' o' h' hacc
        rcases mapGet_set_cases _ _ _ _ _ h' with ⟨hk, hv⟩ | ⟨hne, hold⟩
        · rw [hv] at hacc
          simp at hacc
        · obtain ⟨cc, hcc, hao'⟩ := hInv.bwd gid' o' hold hacc
          by_cases hkk : (o'.borrower, o'.loan_id) = (borrower, loan_id)
          · rw [hkk, hc] at hcc
            cases hcc
            rw [hnone] at hao'
            exact Option.noConfusion hao'
          · refine ⟨cc, ?_, hao'⟩
            rw [mapGet_set_ne _ _ _ _ (fun hh => hkk hh.symm)]
            exact hcc
      · exact keysNodup_set _ _ _ hInv.nodupOffers

theorem is_lender_inv {s : Storage} {lender gid : String} {o : OfferInfo}
    (h : is_lender s lender gid = .ok o) :
    get_offer s gid = .ok o ∧ lender = o.lender := by
  unfold is_lender at h
  cases hgo : get_offer s gid with
  | error e =>
    rw [hgo] at h
    exact Except.noConfusion h
  | ok o1 =>
    rw [hgo] at h
    simp only [id] at h
    by_cases hl : lender ≠ o1.lender
    · rw [if_pos hl] at h
      exact Except.noConfusion h
    · rw [if_neg hl] at h
      cases h
      exact ⟨rfl, not_not.mp hl⟩

theorem is_offer_borrower_inv {s : Storage} {borrower gid : String} {o : OfferInfo}
    (h : is_offer_borrower s borrower gid = .ok o) :
    get_offer s gid = .ok o ∧ borrower = o.borrower := by
  unfold is_offer_borrower at h
  cases hgo : get_offer s gid with
  | error e =>
    rw [hgo] at h
    exact Except.noConfusion h
  | ok o1 =>
    rw [hgo] at h
    simp only [id] at h
    by_cases hl : borrower ≠ o1.borrower
    · rw [if_pos hl] at h
      exact Except.noConfusion h
    · rw [if_neg hl] at h
      cases h
      exact ⟨rfl, not_not.mp hl⟩

theorem can_repay_loan_started {s : Storage} {env : Env} {c : CollateralInfo} {u : Unit}
    (h : can_repay_loan s env c = .ok u) : c.state = .Started := by
  unfold can_repay_loan at h
  split at h
  · exact Except.noConfusion h
  · by_cases hs : c.state ≠ .Started
    · rw [if_pos hs] at h
      exact Except.noConfusion h
    · exact not_not.mp hs

theorem is_loan_defaulted_states {s : Storage} {env : Env} {c : CollateralInfo} {u : Unit}
    (h : is_loan_defaulted s env c = .ok u) :
    c.state = .Started ∨ c.state = .Defaulted := by
  unfold is_loan_defaulted at h
  cases hal : get_active_loan s c with
  | error e =>
    rw [hal] at h
    exact Except.noConfusion h
  | ok o =>
    rw [hal] at h
    cases hst : c.state <;> rw [hst] at h
    · exact Except.noConfusion h
    · exact Or.inl rfl
    · exact Or.inr rfl
    · exact Except.noConfusion h
    · exact Except.noConfusion h

theorem inv_accept_raw {ownerOf : String → String → Option String} {s : Storage} {env : Env}
    {gid : String} {s2 : Storage} {msgs : List LoanMsg} (hInv : Inv s)
    (h : accept_offer_raw ownerOf s env gid = .ok (s2, msgs)) : Inv s2 := by
  simp only [accept_offer_raw] at h
  cases hgo : get_offer s gid with
  | error e =>
    rw [hgo] at h
    exact Except.noConfusion h
  | ok o0 =>
    rw [hgo] at h
    simp only [id] at h
    obtain ⟨oS, cS, hos, hcs, ho0⟩ := get_offer_inv s gid o0 hgo
    have hbkey : o0.borrower = oS.borrower := by rw [ho0]
    have hlkey : o0.loan_id = oS.loan_id := by rw [ho0]
    cases hc : mapGet s.collaterals (o0.borrower, o0.loan_id) with
    | none =>
      rw [hc] at h
      exact Except.noConfusion h
    | some c =>
      rw [hc] at h
      cases hstc : c.state with
      | Started => simp [is_loan_acceptable, hstc] at h
      | Defaulted => simp [is_loan_acceptable, hstc] at h
      | Ended => simp [is_loan_acceptable, hstc] at h
      | AssetWithdrawn => simp [is_loan_acceptable, hstc] at h
      | Published =>
        simp only [is_loan_acceptable, hstc] at h
        split at h
        swap
        · exact Except.noConfusion h
        next hpub =>
        cases hw : withdraw_offer_unsafe o0.borrower { o0 with state := .Accepted } with
        | error e =>
          rw [hw] at h
          exact Except.noConfusion h
        | ok fund_msg =>
          rw [hw] at h
          simp only [id] at h
          cases ham : accept_asset_msgs ownerOf o0.borrower env c.associated_assets with
          | error e =>
            rw [ham] at h
            exact Except.noConfusion h
          | ok asset_msgs =>
            rw [ham] at h
            simp only [id] at h
            rw [Except.ok.injEq, Prod.mk.injEq] at h
            obtain ⟨hs2, hmsgs⟩ := h
            subst hs2
            have hSpub : oS.state = .Published := by
              have : derivedState oS.state cS.state = .Published := by
                rw [ho0] at hpub
                exact hpub
              exact (derivedState_published this).1
            have hnone : c.active_offer = none :=
              active_offer_none hInv hc (by rw [hstc]; simp [activeTriple])
            constructor
            · intro gid' o' h'
              rcases mapGet_set_cases _ _ _ _ _ h' with ⟨hk, hv⟩ | ⟨hne, hold⟩
              · rw [hk]
                exact hInv.idBound gid oS hos
              · exact hInv.idBound gid' o' hold
            · intro b' lid' c' h'
              rcases mapGet_set_cases _ _ _ _ _ h' with ⟨hk, hv⟩ | ⟨hne, hold⟩
              · have hb' : b' = o0.borrower := congrArg Prod.fst hk
                have hl' : lid' = o0.loan_id := congrArg Prod.snd hk
                rw [hb', hl']
                exact hInv.seqBound _ _ c hc
              · exact hInv.seqBound b' lid' c' hold
            · intro b' lid' c' h'
              rcases mapGet_set_cases _ _ _ _ _ h' with ⟨hk, hv⟩ | ⟨hne, hold⟩
              · rw [hv]
                simp [activeTriple]
              · exact hInv.activeIff b' lid' c' hold
            · intro b' lid' c' gid' h' hao'
              rcases mapGet_set_cases _ _ _ _ _ h' with ⟨hk, hv⟩ | ⟨hne, hold⟩
              · rw [hv] at hao'
                simp at hao'
                subst hao'
                refine ⟨{ o0 with state := .Accepted }, mapGet_set_self _ _ _, ?_, ?_, rfl⟩
                · exact (congrArg Prod.fst hk).symm
                · exact (congrArg Prod.snd hk).symm
              · obtain ⟨o, ho, hob, hol, hacc⟩ := hInv.fwd b' lid' c' gid' hold hao'
                by_cases hg : gid' = gid
                · rw [hg, hos] at ho
                  cases ho
                  rw [hSpub] at hacc
                  exact OfferState.noConfusion hacc
                · refine ⟨o, ?_, hob, hol, hacc⟩
                  rw [mapGet_set_ne _ _ _ _ (fun hh => hg hh.symm)]
                  exact ho
            · intro gid' o' h' hacc
              rcases mapGet_set_cases _ _ _ _ _ h' with ⟨hk, hv⟩ | ⟨hne, hold⟩
              · refine ⟨{ c with
                    state := LoanState.Started
                    start_block := some env.block_height
                    active_offer := some gid }, ?_, ?_⟩
                · rw [hv]
                  have : (({ o0 with state := .Accepted } : OfferInfo).borrower,
                      ({ o0 with state := .Accepted } : OfferInfo).loan_id) =
                      (o0.borrower, o0.loan_id) := rfl
                  rw [this]
                  exact mapGet_set_self _ _ _
                · rw [hk]
              · obtain ⟨cc, hcc, hao'⟩ := hInv.bwd gid' o' hold hacc
                by_cases hkk : (o'.borrower, o'.loan_id) = (o0.borrower, o0.loan_id)
                · rw [hkk, hc] at hcc
                  cases hcc
                  rw [hnone] at hao'
                  exact Option.noConfusion hao'
                · refine ⟨cc, ?_, hao'⟩
                  rw [mapGet_set_ne _ _ _ _ (fun hh => hkk hh.symm)]
                  exact hcc
            · exact keysNodup_set _ _ _ hInv.nodupOffers

theorem inv_cancel {s : Storage} {info : MessageInfo} {gid : String}
    {s2 : Storage} {msgs : List LoanMsg} (hInv : Inv s)
    (h : cancel_offer s info gid = .ok (s2, msgs)) : Inv s2 := by
  simp only [cancel_offer] at h
  cases hil : is_lender s info.sender gid with
  | error e =>
    rw [hil] at h
    exact Except.noConfusion h
  | ok o =>
    rw [hil] at h
    simp only [id] at h
    obtain ⟨hgo, hlen⟩ := is_lender_inv hil
    obtain ⟨oS, cS, hos, hcs, ho0⟩ := get_offer_inv s gid o hgo
    by_cases hp : o.state ≠ .Published
    · rw [if_pos hp] at h
      exact Except.noConfusion h
    · rw [if_neg hp] at h
      have hpub : o.state = .Published := not_not.mp hp
      cases hc : mapGet s.collaterals (o.borrower, o.loan_id) with
      | none =>
        rw [hc] at h
        exact Except.noConfusion h
      | some c =>
        rw [hc] at h
        cases hst : c.state with
        | Started => simp [is_loan_modifiable, hst] at h
        | Defaulted => simp [is_loan_modifiable, hst] at h
        | Ended => simp [is_loan_modifiable, hst] at h
        | AssetWithdrawn => simp [is_loan_modifiable, hst] at h
        | Published =>
          simp only [is_loan_modifiable, hst] at h
          cases hw : withdraw_offer_unsafe info.sender o with
          | error e =>
            rw [hw] at h
            exact Except.noConfusion h
          | ok msg =>
            rw [hw] at h
            simp only [id] at h
            rw [Except.ok.injEq, Prod.mk.injEq] at h
            obtain ⟨hs2, hmsgs⟩ := h
            subst hs2
            have hds : derivedState oS.state cS.state = .Published := by
              rw [ho0] at hpub
              exact hpub
            have hSp := (derivedState_published hds).1
            refine inv_set_offer s gid oS _ hInv hos ?_ ?_
            · rw [hSp]
              intro hh
              exact OfferState.noConfusion hh
            · intro hh
              exact OfferState.noConfusion hh

theorem inv_refuse {s : Storage} {info : MessageInfo} {gid : String}
    {s2 : Storage} {msgs : List LoanMsg} (hInv : Inv s)
    (h : refuse_offer s info gid = .ok (s2, msgs)) : Inv s2 := by
  simp only [refuse_offer] at h
  cases hib : is_offer_borrower s info.sender gid with
  | error e =>
    rw [hib] at h
    exact Except.noConfusion h
  | ok o =>
    rw [hib] at h
    simp only [id] at h
    obtain ⟨hgo, hbor⟩ := is_offer_borrower_inv hib
    obtain ⟨oS, cS, hos, hcs, ho0⟩ := get_offer_inv s gid o hgo
    cases hc : mapGet s.collaterals (o.borrower, o.loan_id) with
    | none =>
      rw [hc] at h
      exact Except.noConfusion h
    | some c =>
      rw [hc] at h
      cases hst : c.state with
      | Started => simp [is_offer_refusable, is_loan_counterable, hst] at h
      | Defaulted => simp [is_offer_refusable, is_loan_counterable, hst] at h
      | Ended => simp [is_offer_refusable, is_loan_counterable, hst] at h
      | AssetWithdrawn => simp [is_offer_refusable, is_loan_counterable, hst] at h
      | Published =>
        cases host : o.state with
        | Accepted => simp [is_offer_refusable, is_loan_counterable, hst, host] at h
        | Refused => simp [is_offer_refusable, is_loan_counterable, hst, host] at h
        | Cancelled => simp [is_offer_refusable, is_loan_counterable, hst, host] at h
        | Published =>
          simp only [is_offer_refusable, is_loan_counterable, hst, host] at h
          rw [Except.ok.injEq, Prod.mk.injEq] at h
          obtain ⟨hs2, hmsgs⟩ := h
          subst hs2
          have hds : derivedState oS.state cS.state = .Published := by
            rw [ho0] at host
            exact host
          have hSp := (derivedState_published hds).1
          refine inv_set_offer s gid oS _ hInv hos ?_ ?_
          · rw [hSp]
            intro hh
            exact OfferState.noConfusion hh
          · intro hh
            exact OfferState.noConfusion hh

theorem inv_withdrawRefused {s : Storage} {info : MessageInfo} {gid : String}
    {s2 : Storage} {msgs : List LoanMsg} (hInv : Inv s)
    (h : withdraw_refused_offer s info gid = .ok (s2, msgs)) : Inv s2 := by
  simp only [withdraw_refused_offer] at h
  cases hil : is_lender s info.sender gid with
  | error e =>
    rw [hil] at h
    exact Except.noConfusion h
  | ok o =>
    rw [hil] at h
    simp only [id] at h
    obtain ⟨hgo, hlen⟩ := is_lender_inv hil
    obtain ⟨oS, cS, hos, hcs, ho0⟩ := get_offer_inv s gid o hgo
    by_cases hr : o.state ≠ .Refused
    · rw [if_pos hr] at h
      exact Except.noConfusion h
    · rw [if_neg hr] at h
      have href : o.state = .Refused := not_not.mp hr
      cases hw : withdraw_offer_unsafe info.sender o with
      | error e =>
        rw [hw] at h
        exact Except.noConfusion h
      | ok msg =>
        rw [hw] at h
        simp only [id] at h
        rw [Except.ok.injEq, Prod.mk.injEq] at h
        obtain ⟨hs2, hmsgs⟩ := h
        subst hs2
        have hds : derivedState oS.state cS.state = .Refused := by
          rw [ho0] at href
          exact href
        refine inv_set_offer s gid oS _ hInv hos ?_ ?_
        · rcases derivedState_refused hds with h1 | h1 <;> rw [h1] <;>
            exact fun hh => OfferState.noConfusion hh
        · show o.state ≠ .Accepted
          rw [href]
          intro hh
          exact OfferState.noConfusion hh

theorem inv_repay {s : Storage} {env : Env} {info : MessageInfo} {loan_id : Nat}
    {s2 : Storage} {msgs : List LoanMsg} (hInv : Inv s)
    (h : repay_borrowed_funds s env info loan_id = .ok (s2, msgs)) : Inv s2 := by
  simp only [repay_borrowed_funds] at h
  cases hc : mapGet s.collaterals (info.sender, loan_id) with
  | none =>
    rw [hc] at h
    exact Except.noConfusion h
  | some c =>
    rw [hc] at h
    simp only [id] at h
    cases hcr : can_repay_loan s env c with
    | error e =>
      rw [hcr] at h
      exact Except.noConfusion h
    | ok u =>
      rw [hcr] at h
      simp only [id] at h
      have hst : c.state = .Started := can_repay_loan_started hcr
      cases hal : get_active_loan s c with
      | error e =>
        rw [hal] at h
        exact Except.noConfusion h
      | ok o =>
        rw [hal] at h
        simp only [id] at h
        split at h
        all_goals try exact Except.noConfusion h
        split at h
        all_goals try exact Except.noConfusion h
        split at h
        all_goals try exact Except.noConfusion h
        split at h
        all_goals try exact Except.noConfusion h
        split at h
        all_goals try exact Except.noConfusion h
        split at h
        all_goals try exact Except.noConfusion h
        split at h
        all_goals try exact Except.noConfusion h
        rw [Except.ok.injEq, Prod.mk.injEq] at h
        obtain ⟨hs2, hmsgs⟩ := h
        subst hs2
        apply inv_set_coll s info.sender loan_id c
          ({ c with state := .Ended }) hInv hc rfl
        rw [hst]
        simp [activeTriple]

theorem inv_withdrawDefaulted {s : Storage} {env : Env} {info : MessageInfo}
    {borrower : String} {loan_id : Nat} {s2 : Storage} {msgs : List LoanMsg} (hInv : Inv s)
    (h : withdraw_defaulted_loan s env info borrower loan_id = .ok (s2, msgs)) : Inv s2 := by
  simp only [withdraw_defaulted_loan] at h
  cases hc : mapGet s.collaterals (borrower, loan_id) with
  | none =>
    rw [hc] at h
    exact Except.noConfusion h
  | some c =>
    rw [hc] at h
    simp only [id] at h
    cases hd : is_loan_defaulted s env c with
    | error e =>
      rw [hd] at h
      exact Except.noConfusion h
    | ok u =>
      rw [hd] at h
      simp only [id] at h
      cases hial : is_active_lender s info.sender c with
      | error e =>
        rw [hial] at h
        exact Except.noConfusion h
      | ok o =>
        rw [hial] at h
        simp only [id] at h
        by_cases hdef : c.state = .Defaulted
        · rw [if_pos hdef] at h
          exact Except.noConfusion h
        · rw [if_neg hdef] at h
          have hst : c.state = .Started := by
            rcases is_loan_defaulted_states hd with h1 | h1
            · exact h1
            · exact absurd h1 hdef
          cases hwm : withdraw_loan_msgs { c with state := .Defaulted } o.lender with
          | error e =>
            rw [hwm] at h
            exact Except.noConfusion h
          | ok msgs0 =>
            rw [hwm] at h
            simp only [id] at h
            rw [Except.ok.injEq, Prod.mk.injEq] at h
            obtain ⟨hs2, hmsgs⟩ := h
            subst hs2
            apply inv_set_coll s borrower loan_id c
              ({ c with state := .Defaulted }) hInv hc rfl
            rw [hst]
            simp [activeTriple]

theorem inv_make_offer {s : Storage} {env : Env} {info : MessageInfo} {borrower : String}
    {loan_id : Nat} {terms : LoanTerms} {comment : Option String}
    {s2 : Storage} {msgs : List LoanMsg} (hInv : Inv s)
    (h : make_offer s env info borrower loan_id terms comment = .ok (s2, msgs)) : Inv s2 := by
  simp only [make_offer] at h
  cases hmr : make_offer_raw s env info borrower loan_id terms comment with
  | error e =>
    rw [hmr] at h
    exact Except.noConfusion h
  | ok tr =>
    obtain ⟨sa, ga, oa⟩ := tr
    rw [hmr] at h
    simp only [id] at h
    rw [Except.ok.injEq, Prod.mk.injEq] at h
    obtain ⟨hs2, hmsgs⟩ := h
    subst hs2
    exact inv_make_raw hInv hmr

theorem inv_accept_offer {ownerOf : String → String → Option String} {s : Storage}
    {env : Env} {info : MessageInfo} {gid : String} {s2 : Storage} {msgs : List LoanMsg}
    (hInv : Inv s) (h : accept_offer ownerOf s env info gid = .ok (s2, msgs)) : Inv s2 := by
  simp only [accept_offer] at h
  cases hib : is_offer_borrower s info.sender gid with
  | error e =>
    rw [hib] at h
    exact Except.noConfusion h
  | ok o =>
    rw [hib] at h
    simp only [id] at h
    exact inv_accept_raw hInv h

theorem inv_accept_loan {ownerOf : String → String → Option String} {s : Storage}
    {env : Env} {info : MessageInfo} {borrower : String} {loan_id : Nat}
    {comment : Option String} {s2 : Storage} {msgs : List LoanMsg} (hInv : Inv s)
    (h : accept_loan ownerOf s env info borrower loan_id comment = .ok (s2, msgs)) :
    Inv s2 := by
  simp only [accept_loan] at h
  cases hc : mapGet s.collaterals (borrower, loan_id) with
  | none =>
    rw [hc] at h
    exact Except.noConfusion h
  | some c =>
    rw [hc] at h
    simp only [id] at h
    cases hterms : c.terms with
    | none =>
      rw [hterms] at h
      exact Except.noConfusion h
    | some t =>
      rw [hterms] at h
      simp only [id] at h
      cases hmr : make_offer_raw s env info borrower loan_id t comment with
      | error e =>
        rw [hmr] at h
        exact Except.noConfusion h
      | ok tr =>
        obtain ⟨s1, gid1, oid1⟩ := tr
        rw [hmr] at h
        simp only [id] at h
        exact inv_accept_raw (inv_make_raw hInv hmr) h

theorem inv_step {s s2 : Storage} (hInv : Inv s) (hs : Step s s2) : Inv s2 := by
  cases hs with
  | deposit h => exact inv_deposit hInv h
  | modify h => exact inv_modify hInv h
  | withdrawColl h => exact inv_withdrawColl hInv h
  | makeOffer h => exact inv_make_offer hInv h
  | acceptLoan h => exact inv_accept_loan hInv h
  | acceptOffer h => exact inv_accept_offer hInv h
  | cancelOffer h => exact inv_cancel hInv h
  | refuseOffer h => exact inv_refuse hInv h
  | withdrawRefused h => exact inv_withdrawRefused hInv h
  | repay h => exact inv_repay hInv h
  | withdrawDefaulted h => exact inv_withdrawDefaulted hInv h
  | admin h => exact inv_admin _ _ hInv h

theorem inv_init (ci : ContractInfo) :
    Inv { contract_info := ci, collaterals := [], borrowers := [], offers := [] } := by
  constructor
  · intro gid o hg
    simp [mapGet] at hg
  · intro b lid c hc
    simp [mapGet] at hc
  · intro b lid c hc
    simp [mapGet] at hc
  · intro b lid c gid hc hao
    simp [mapGet] at hc
  · intro gid o hg hacc
    simp [mapGet] at hg
  · simp [keysNodup]

/-- Every reachable storage satisfies the registry invariant. -/
theorem inv_reachable {s : Storage} (h : Reachable s) : Inv s := by
  induction h with
  | init ci h0 => exact inv_init ci
  | step hr hs ih => exact inv_step ih hs

/-- The number of stored offers referencing collateral `(b, lid)` whose
stored state is `Accepted`. -/
def acceptedOffersCount (offers : List (String × OfferInfo)) (b : String) (lid : Nat) : Nat :=
  offers.countP (fun p =>
    decide (p.2.borrower = b ∧ p.2.loan_id = lid ∧ p.2.state = OfferState.Accepted))

theorem accepted_points_to_active {s : Storage} (hInv : Inv s) {b : String} {lid : Nat}
    {c : CollateralInfo} (hc : mapGet s.collaterals (b, lid) = some c)
    {p : String × OfferInfo} (hp : p ∈ s.offers)
    (hP : p.2.borrower = b ∧ p.2.loan_id = lid ∧ p.2.state = OfferState.Accepted) :
    c.active_offer = some p.1 := by
  have hget : mapGet s.offers p.1 = some p.2 := by
    have := mem_mapGet s.offers p.1 p.2 hInv.nodupOffers
    exact this (by cases p; exact hp)
  obtain ⟨c', hc', hao'⟩ := hInv.bwd p.1 p.2 hget hP.2.2
  rw [hP.1, hP.2.1, hc] at hc'
  cases hc'
  exact hao'

/-- C1: in every reachable storage, a collateral has at most one stored
`Accepted` offer, exactly one iff its state is `Started`/`Ended`/`Defaulted`,
`active_offer` is `Some` iff the state is in that set, and it then names that
unique accepted offer. -/
theorem thm_C1_at_most_one_active_offer (s : Storage) (hs : Reachable s) (b : String)
    (lid : Nat) (c : CollateralInfo) (hc : mapGet s.collaterals (b, lid) = some c) :
    acceptedOffersCount s.offers b lid ≤ 1 ∧
    (acceptedOffersCount s.offers b lid = 1 ↔ activeTriple c.state) ∧
    (c.active_offer.isSome ↔ activeTriple c.state) ∧
    (∀ gid, c.active_offer = some gid →
      ∃ o, mapGet s.offers gid = some o ∧ o.state = .Accepted ∧ o.borrower = b ∧
        o.loan_id = lid ∧
        ∀ gid2 o2, mapGet s.offers gid2 = some o2 → o2.borrower = b → o2.loan_id = lid →
          o2.state = .Accepted → gid2 = gid) := by
  have hInv := inv_reachable hs
  have hle : acceptedOffersCount s.offers b lid ≤ 1 := by
    cases hao : c.active_offer with
    | none =>
      unfold acceptedOffersCount
      have hzero : s.offers.countP (fun p =>
          decide (p.2.borrower = b ∧ p.2.loan_id = lid ∧ p.2.state = OfferState.Accepted))
          = 0 := by
        rw [List.countP_eq_zero]
        intro p hp hP
        have := accepted_points_to_active hInv hc hp (of_decide_eq_true hP)
        rw [hao] at this
        exact Option.noConfusion this
      omega
    | some gidA =>
      unfold acceptedOffersCount
      apply countP_le_one_of_key _ _ gidA hInv.nodupOffers
      intro p hp hP
      have := accepted_points_to_active hInv hc hp (of_decide_eq_true hP)
      rw [hao] at this
      exact (Option.some.injEq _ _ ▸ this.symm)
  refine ⟨hle, ?_, ?_, ?_⟩
  · constructor
    · intro hone
      have hpos : 0 < s.offers.countP (fun p =>
          decide (p.2.borrower = b ∧ p.2.loan_id = lid ∧ p.2.state = OfferState.Accepted)) := by
        unfold acceptedOffersCount at hone
        omega
      obtain ⟨p, hp, hP⟩ := List.countP_pos_iff.1 hpos
      have hact := accepted_points_to_active hInv hc hp (of_decide_eq_true hP)
      exact (hInv.activeIff b lid c hc).2 (by rw [hact]; exact Option.noConfusion)
    · intro htriple
      have hne := (hInv.activeIff b lid c hc).1 htriple
      cases hao : c.active_offer with
      | none => exact absurd hao hne
      | some gidA =>
        obtain ⟨o, ho, hob, hol, hacc⟩ := hInv.fwd b lid c gidA hc hao
        have hmem : (gidA, o) ∈ s.offers := mapGet_mem _ _ _ ho
        have hpos : 0 < s.offers.countP (fun p =>
            decide (p.2.borrower = b ∧ p.2.loan_id = lid ∧
              p.2.state = OfferState.Accepted)) :=
          List.countP_pos_iff.2 ⟨(gidA, o), hmem, decide_eq_true ⟨hob, hol, hacc⟩⟩
        unfold acceptedOffersCount at hle ⊢
        omega
  · rw [Option.isSome_iff_ne_none]
    exact (hInv.activeIff b lid c hc).symm
  · intro gid hao
    obtain ⟨o, ho, hob, hol, hacc⟩ := hInv.fwd b lid c gid hc hao
    refine ⟨o, ho, hacc, hob, hol, ?_⟩
    intro gid2 o2 ho2 hob2 hol2 hacc2
    obtain ⟨c', hc', hao'⟩ := hInv.bwd gid2 o2 ho2 hacc2
    rw [hob2, hol2, hc] at hc'
    cases hc'
    rw [hao] at hao'
    exact (Option.some.injEq _ _ ▸ hao').symm

/-! #### Concrete storages used as witnesses and counterexamples -/

def c1Cfg : ContractInfo :=
  { name := "atlas-dao-nft-loans"
    owner := "owner"
    new_owner := none
    fee_distributor := "fee_distributor_addr"
    fee_rate := 5 * 10 ^ 16
    global_offer_index := 0 }

def c1Init : Storage :=
  { contract_info := c1Cfg, collaterals := [], borrowers := [], offers := [] }

def c1Env : Env := { block_height := 1, block_time := 5, contract_addr := "loan_contract" }

def c1Coll : CollateralInfo :=
  { terms := none
    associated_assets := [AssetInfo.Cw721Coin "nft_contract" "42"]
    list_date := 5
    state := .Published
    offer_amount := 0
    active_offer := none
    start_block := none
    comment := none
    loan_preview := none }

def c1S : Storage :=
  { contract_info := c1Cfg
    collaterals := [(("alice", 0), c1Coll)]
    borrowers := [("alice", 0)]
    offers := [] }

theorem c1_reach : Reachable c1S :=
  Reachable.step (Reachable.init c1Cfg rfl)
    (Step.deposit (show deposit_collaterals c1Init c1Env ⟨"alice", []⟩
      [AssetInfo.Cw721Coin "nft_contract" "42"] none none none = .ok (c1S, []) from rfl))

theorem thm_C1_witness :
    acceptedOffersCount c1S.offers "alice" 0 ≤ 1 ∧
    (acceptedOffersCount c1S.offers "alice" 0 = 1 ↔ activeTriple c1Coll.state) ∧
    (c1Coll.active_offer.isSome ↔ activeTriple c1Coll.state) ∧
    (∀ gid, c1Coll.active_offer = some gid →
      ∃ o, mapGet c1S.offers gid = some o ∧ o.state = .Accepted ∧ o.borrower = "alice" ∧
        o.loan_id = 0 ∧
        ∀ gid2 o2, mapGet c1S.offers gid2 = some o2 → o2.borrower = "alice" →
          o2.loan_id = 0 → o2.state = .Accepted → gid2 = gid) :=
  thm_C1_at_most_one_active_offer c1S c1_reach "alice" 0 c1Coll rfl

/-! ### Settlement arithmetic (repay / default) -/

def isNftAsset : AssetInfo → Bool
  | .Cw721Coin _ _ => true
  | .Sg721Token _ _ => true
  | _ => false

/-- The transfer message `_withdraw_asset` produces for an NFT asset (the
value on non-NFT assets is irrelevant: those error out instead). -/
def nftTransferMsg (recipient : String) : AssetInfo → LoanMsg
  | .Sg721Token address token_id => .Sg721Transfer address recipient token_id
  | .Cw721Coin address token_id => .Cw721Transfer address recipient token_id
  | _ => .BankSend recipient []

def assetAddr : AssetInfo → String
  | .Sg721Token address _ => address
  | .Cw721Coin address _ => address
  | _ => ""

theorem withdraw_assets_foldr_ok (l : List AssetInfo) (recipient : String)
    (hall : ∀ a ∈ l, isNftAsset a = true) :
    l.foldr (withdraw_asset_step recipient) (.ok []) =
      .ok (l.map (nftTransferMsg recipient)) := by
  induction l with
  | nil => rfl
  | cons a rest ih =>
    have ha := hall a (List.mem_cons_self _ _)
    have hrest := ih (fun x hx => hall x (List.mem_cons_of_mem _ hx))
    cases a with
    | Cw721Coin address token_id =>
      simp only [List.foldr_cons, hrest, withdraw_asset_step, withdraw_asset_msg,
        List.map_cons, nftTransferMsg]
    | Sg721Token address token_id =>
      simp only [List.foldr_cons, hrest, withdraw_asset_step, withdraw_asset_msg,
        List.map_cons, nftTransferMsg]
    | Cw1155Coin address token_id value => simp [isNftAsset] at ha
    | CoinAsset coin => simp [isNftAsset] at ha
    | Cw20Coin address amount => simp [isNftAsset] at ha

theorem withdraw_loan_msgs_ok (c : CollateralInfo) (recipient : String)
    (hall : ∀ a ∈ c.associated_assets, isNftAsset a = true) :
    withdraw_loan_msgs c recipient =
      .ok (c.associated_assets.map (nftTransferMsg recipient)) :=
  withdraw_assets_foldr_ok c.associated_assets recipient hall

theorem collateral_addresses_ok (l : List AssetInfo)
    (hall : ∀ a ∈ l, isNftAsset a = true) :
    collateral_addresses l = .ok (l.map assetAddr) := by
  induction l with
  | nil => rfl
  | cons a rest ih =>
    have ha := hall a (List.mem_cons_self _ _)
    have hrest := ih (fun x hx => hall x (List.mem_cons_of_mem _ hx))
    cases a with
    | Cw721Coin address token_id =>
      simp only [collateral_addresses, hrest, List.map_cons, assetAddr]
    | Sg721Token address token_id =>
      simp only [collateral_addresses, hrest, List.map_cons, assetAddr]
    | Cw1155Coin address token_id value => simp [isNftAsset] at ha
    | CoinAsset coin => simp [isNftAsset] at ha
    | Cw20Coin address amount => simp [isNftAsset] at ha

theorem E18_pos : 0 < E18 := by norm_num [E18]

/-- Success characterization of `repay_borrowed_funds` on a running loan:
the exact updated storage and outbound messages. -/
theorem repay_spec (s : Storage) (env : Env) (b : String) (lid : Nat)
    (coin : Coin) (c : CollateralInfo) (gid : String) (o : OfferInfo) (sb : Nat)
    (hc : mapGet s.collaterals (b, lid) = some c)
    (hst : c.state = .Started)
    (hsb : c.start_block = some sb)
    (hao : c.active_offer = some gid)
    (ho : mapGet s.offers gid = some o)
    (hob : o.borrower = b) (holid : o.loan_id = lid)
    (hnd : ¬ sb + o.terms.duration_in_blocks < env.block_height)
    (hdenom : o.terms.principle.denom = coin.denom)
    (hamt : o.terms.principle.amount + o.terms.interest ≤ coin.amount)
    (hfee : s.contract_info.fee_rate ≤ E18)
    (hassets : ∀ a ∈ c.associated_assets, isNftAsset a = true) :
    repay_borrowed_funds s env ⟨b, [coin]⟩ lid = .ok
      ({ s with collaterals := (mapSet s.collaterals (b, lid) { c with state := .Ended }) },
        (if 0 < o.terms.principle.amount +
            o.terms.interest * (E18 - s.contract_info.fee_rate) / E18 then
          [LoanMsg.BankSend o.lender [⟨coin.denom, o.terms.principle.amount +
            o.terms.interest * (E18 - s.contract_info.fee_rate) / E18⟩]]
        else []) ++
        c.associated_assets.map (nftTransferMsg b) ++
        (if 0 < coin.amount - (o.terms.principle.amount +
            o.terms.interest * (E18 - s.contract_info.fee_rate) / E18) then
          [LoanMsg.DepositFees s.contract_info.fee_distributor
            (c.associated_assets.map assetAddr)
            [⟨coin.denom, coin.amount - (o.terms.principle.amount +
              o.terms.interest * (E18 - s.contract_info.fee_rate) / E18)⟩]]
        else [])) := by
  have hal : get_active_loan s c = .ok { o with state := derivedState o.state c.state } := by
    unfold get_active_loan
    rw [hao]
    exact get_offer_of_stored s gid o c ho (by rw [hob, holid]; exact hc)
  have hdef : is_loan_defaulted s env c = .error (.WrongLoanState .Started) := by
    simp only [is_loan_defaulted, hal, hst, hsb]
    rw [if_neg hnd]
  have hcr : can_repay_loan s env c = .ok () := by
    simp [can_repay_loan, hdef, exceptIsOk, hst]
  have hfactor : o.terms.interest * (E18 - s.contract_info.fee_rate) / E18 ≤
      o.terms.interest := by
    calc o.terms.interest * (E18 - s.contract_info.fee_rate) / E18
        ≤ o.terms.interest * E18 / E18 :=
          Nat.div_le_div_right (Nat.mul_le_mul_left _ (by omega))
      _ = o.terms.interest := Nat.mul_div_cancel _ E18_pos
  simp only [repay_borrowed_funds, hc, hcr, hal]
  rw [if_neg (show ¬ ({ o with state := derivedState o.state c.state } :
      OfferInfo).terms.principle.denom ≠ coin.denom from by simp [hdenom])]
  rw [if_neg (show ¬ coin.amount < ({ o with state := derivedState o.state c.state } :
      OfferInfo).terms.principle.amount +
      ({ o with state := derivedState o.state c.state } : OfferInfo).terms.interest from by
    simp only
    omega)]
  rw [if_neg (show ¬ E18 < s.contract_info.fee_rate from by omega)]
  rw [if_neg (show ¬ coin.amount < ({ o with state := derivedState o.state c.state } :
      OfferInfo).terms.principle.amount +
      ({ o with state := derivedState o.state c.state } : OfferInfo).terms.interest *
        (E18 - s.contract_info.fee_rate) / E18 from by
    simp only
    omega)]
  rw [collateral_addresses_ok c.associated_assets hassets]
  rw [withdraw_loan_msgs_ok { c with state := .Ended } b hassets]

/-! #### Message accounting -/

/-- Total amount of coins of a given denomination in a coin list. -/
def coinsAmount (denom : String) : List Coin → Nat
  | [] => 0
  | c :: rest => (if c.denom = denom then c.amount else 0) + coinsAmount denom rest

/-- Total `BankMsg::Send` amount of a denomination addressed to `addr`. -/
def bankPaidTo : List LoanMsg → String → String → Nat
  | [], _, _ => 0
  | .BankSend to_addr cs :: rest, addr, denom =>
    (if to_addr = addr then coinsAmount denom cs else 0) + bankPaidTo rest addr denom
  | _ :: rest, addr, denom => bankPaidTo rest addr denom

/-- Total funds of a denomination attached to `DepositFees` calls on `addr`. -/
def feesPaidTo : List LoanMsg → String → String → Nat
  | [], _, _ => 0
  | .DepositFees dist _ cs :: rest, addr, denom =>
    (if dist = addr then coinsAmount denom cs else 0) + feesPaidTo rest addr denom
  | _ :: rest, addr, denom => feesPaidTo rest addr denom

theorem bankPaidTo_append (l1 l2 : List LoanMsg) (addr denom : String) :
    bankPaidTo (l1 ++ l2) addr denom = bankPaidTo l1 addr denom + bankPaidTo l2 addr denom := by
  induction l1 with
  | nil => simp [bankPaidTo]
  | cons m rest ih =>
    cases m <;> simp [bankPaidTo, ih] <;> omega

theorem feesPaidTo_append (l1 l2 : List LoanMsg) (addr denom : String) :
    feesPaidTo (l1 ++ l2) addr denom = feesPaidTo l1 addr denom + feesPaidTo l2 addr denom := by
  induction l1 with
  | nil => simp [feesPaidTo]
  | cons m rest ih =>
    cases m <;> simp [feesPaidTo, ih] <;> omega

theorem bankPaidTo_nft_map (l : List AssetInfo) (recipient addr denom : String) :
    bankPaidTo (l.map (nftTransferMsg recipient)) addr denom = 0 := by
  induction l with
  | nil => rfl
  | cons a rest ih =>
    cases a <;> simp [nftTransferMsg, bankPaidTo, coinsAmount, ih]

theorem feesPaidTo_nft_map (l : List AssetInfo) (recipient addr denom : String) :
    feesPaidTo (l.map (nftTransferMsg recipient)) addr denom = 0 := by
  induction l with
  | nil => rfl
  | cons a rest ih =>
    cases a <;> simp [nftTransferMsg, feesPaidTo, ih]

/-- Accounting of a successful repayment's outbound messages. -/
theorem repay_accounting (s : Storage) (env : Env) (b : String) (lid : Nat)
    (coin : Coin) (c : CollateralInfo) (gid : String) (o : OfferInfo) (sb : Nat)
    (hc : mapGet s.collaterals (b, lid) = some c)
    (hst : c.state = .Started)
    (hsb : c.start_block = some sb)
    (hao : c.active_offer = some gid)
    (ho : mapGet s.offers gid = some o)
    (hob : o.borrower = b) (holid : o.loan_id = lid)
    (hnd : ¬ sb + o.terms.duration_in_blocks < env.block_height)
    (hdenom : o.terms.principle.denom = coin.denom)
    (hamt : o.terms.principle.amount + o.terms.interest ≤ coin.amount)
    (hfee : s.contract_info.fee_rate < E18)
    (hassets : ∀ a ∈ c.associated_assets, isNftAsset a = true) :
    ∃ s2 msgs, repay_borrowed_funds s env ⟨b, [coin]⟩ lid = .ok (s2, msgs) ∧
      bankPaidTo msgs o.lender coin.denom =
        o.terms.principle.amount +
          o.terms.interest * (E18 - s.contract_info.fee_rate) / E18 ∧
      feesPaidTo msgs s.contract_info.fee_distributor coin.denom =
        coin.amount - (o.terms.principle.amount +
          o.terms.interest * (E18 - s.contract_info.fee_rate) / E18) ∧
      (∀ addr, addr ≠ o.lender → bankPaidTo msgs addr coin.denom = 0) := by
  have hspec := repay_spec s env b lid coin c gid o sb hc hst hsb hao ho hob holid hnd
    hdenom hamt (le_of_lt hfee) hassets
  refine ⟨_, _, hspec, ?_, ?_, ?_⟩
  · rw [bankPaidTo_append, bankPaidTo_append, bankPaidTo_nft_map]
    have hfeemsg : bankPaidTo (if 0 < coin.amount - (o.terms.principle.amount +
        o.terms.interest * (E18 - s.contract_info.fee_rate) / E18) then
        [LoanMsg.DepositFees s.contract_info.fee_distributor
          (c.associated_assets.map assetAddr)
          [⟨coin.denom, coin.amount - (o.terms.principle.amount +
            o.terms.interest * (E18 - s.contract_info.fee_rate) / E18)⟩]]
        else []) o.lender coin.denom = 0 := by
      split <;> simp [bankPaidTo]
    rw [hfeemsg]
    by_cases hpos : 0 < o.terms.principle.amount +
        o.terms.interest * (E18 - s.contract_info.fee_rate) / E18
    · rw [if_pos hpos]
      simp [bankPaidTo, coinsAmount]
    · rw [if_neg hpos]
      simp [bankPaidTo, Nat.eq_zero_of_not_pos hpos]
  · rw [feesPaidTo_append, feesPaidTo_append, feesPaidTo_nft_map]
    have hbankmsg : feesPaidTo (if 0 < o.terms.principle.amount +
        o.terms.interest * (E18 - s.contract_info.fee_rate) / E18 then
        [LoanMsg.BankSend o.lender [⟨coin.denom, o.terms.principle.amount +
          o.terms.interest * (E18 - s.contract_info.fee_rate) / E18⟩]]
        else []) s.contract_info.fee_distributor coin.denom = 0 := by
      split <;> simp [feesPaidTo]
    rw [hbankmsg]
    by_cases hpos : 0 < coin.amount - (o.terms.principle.amount +
        o.terms.interest * (E18 - s.contract_info.fee_rate) / E18)
    · rw [if_pos hpos]
      simp [feesPaidTo, coinsAmount]
    · rw [if_neg hpos]
      simp [feesPaidTo, Nat.eq_zero_of_not_pos hpos]
  · intro addr haddr
    rw [bankPaidTo_append, bankPaidTo_append, bankPaidTo_nft_map]
    have h1 : bankPaidTo (if 0 < o.terms.principle.amount +
        o.terms.interest * (E18 - s.contract_info.fee_rate) / E18 then
        [LoanMsg.BankSend o.lender [⟨coin.denom, o.terms.principle.amount +
          o.terms.interest * (E18 - s.contract_info.fee_rate) / E18⟩]]
        else []) addr coin.denom = 0 := by
      split
      · simp [bankPaidTo, Ne.symm haddr]
      · simp [bankPaidTo]
    have h2 : bankPaidTo (if 0 < coin.amount - (o.terms.principle.amount +
        o.terms.interest * (E18 - s.contract_info.fee_rate) / E18) then
        [LoanMsg.DepositFees s.contract_info.fee_distributor
          (c.associated_assets.map assetAddr)
          [⟨coin.denom, coin.amount - (o.terms.principle.amount +
            o.terms.interest * (E18 - s.contract_info.fee_rate) / E18)⟩]]
        else []) addr coin.denom = 0 := by
      split <;> simp [bankPaidTo]
    rw [h1, h2]

/-- C2: a successful repayment pays the lender exactly
`principle + interest * (1 - fee_rate)` (the product floored at `Decimal`
precision) and routes exactly `amount_sent - lender_payback` to the fee
distributor. -/
theorem thm_C2_repay_fee_split (s : Storage) (env : Env) (b : String) (lid : Nat)
    (coin : Coin) (c : CollateralInfo) (gid : String) (o : OfferInfo) (sb : Nat)
    (hc : mapGet s.collaterals (b, lid) = some c)
    (hst : c.state = .Started)
    (hsb : c.start_block = some sb)
    (hao : c.active_offer = some gid)
    (ho : mapGet s.offers gid = some o)
    (hob : o.borrower = b) (holid : o.loan_id = lid)
    (hnd : ¬ sb + o.terms.duration_in_blocks < env.block_height)
    (hdenom : o.terms.principle.denom = coin.denom)
    (hamt : o.terms.principle.amount + o.terms.interest ≤ coin.amount)
    (hfee : s.contract_info.fee_rate < E18)
    (hassets : ∀ a ∈ c.associated_assets, isNftAsset a = true) :
    ∃ s2 msgs, repay_borrowed_funds s env ⟨b, [coin]⟩ lid = .ok (s2, msgs) ∧
      bankPaidTo msgs o.lender coin.denom =
        o.terms.principle.amount +
          o.terms.interest * (E18 - s.contract_info.fee_rate) / E18 ∧
      feesPaidTo msgs s.contract_info.fee_distributor coin.denom =
        coin.amount - (o.terms.principle.amount +
          o.terms.interest * (E18 - s.contract_info.fee_rate) / E18) := by
  obtain ⟨s2, msgs, hok, hbank, hfees, hzero⟩ := repay_accounting s env b lid coin c gid o sb
    hc hst hsb hao ho hob holid hnd hdenom hamt hfee hassets
  exact ⟨s2, msgs, hok, hbank, hfees⟩

def c2Terms : LoanTerms :=
  { principle := ⟨"ux", 456⟩
    interest := 50
    duration_in_blocks := 1 }

def c2Offer : OfferInfo :=
  { lender := "bob"
    borrower := "alice"
    loan_id := 0
    offer_id := 1
    terms := c2Terms
    state := .Accepted
    list_date := 5
    deposited_funds := some ⟨"ux", 456⟩
    comment := none }

def c2Coll : CollateralInfo :=
  { terms := some c2Terms
    associated_assets := [AssetInfo.Cw721Coin "nft_contract" "42"]
    list_date := 5
    state := .Started
    offer_amount := 1
    active_offer := some "1"
    start_block := some 2
    comment := none
    loan_preview := none }

def c2S : Storage :=
  { contract_info := { c1Cfg with global_offer_index := 1 }
    collaterals := [(("alice", 0), c2Coll)]
    borrowers := [("alice", 0)]
    offers := [("1", c2Offer)] }

theorem thm_C2_witness :
    ∃ s2 msgs,
      repay_borrowed_funds c2S ⟨3, 6, "loan_contract"⟩ ⟨"alice", [⟨"ux", 506⟩]⟩ 0 =
        .ok (s2, msgs) ∧
      bankPaidTo msgs "bob" "ux" = 503 ∧
      feesPaidTo msgs "fee_distributor_addr" "ux" = 3 := by
  have h := thm_C2_repay_fee_split c2S ⟨3, 6, "loan_contract"⟩ "alice" 0 ⟨"ux", 506⟩
    c2Coll "1" c2Offer 2 rfl rfl rfl rfl rfl rfl rfl (by decide) rfl (by decide)
    (by decide) (by decide)
  obtain ⟨s2, msgs, hok, hbank, hfees⟩ := h
  refine ⟨s2, msgs, hok, ?_, ?_⟩
  · have hb : bankPaidTo msgs "bob" "ux" = c2Offer.terms.principle.amount +
        c2Offer.terms.interest * (E18 - c2S.contract_info.fee_rate) / E18 := hbank
    rw [hb]
    decide
  · have hf : feesPaidTo msgs "fee_distributor_addr" "ux" =
        506 - (c2Offer.terms.principle.amount +
          c2Offer.terms.interest * (E18 - c2S.contract_info.fee_rate) / E18) := hfees
    rw [hf]
    decide

theorem payback_le (p i fr : Nat) (hfr : fr ≤ E18) :
    p + i * (E18 - fr) / E18 ≤ p + i := by
  have h1 : i * (E18 - fr) / E18 ≤ i * E18 / E18 :=
    Nat.div_le_div_right (Nat.mul_le_mul_left _ (by omega))
  have h2 : i * E18 / E18 = i := Nat.mul_div_cancel _ E18_pos
  omega

/-- C3: the repayment payment guard accepts exactly one coin of the
principal's denomination with amount at least principal + interest, rejects
the three malformed-payment shapes with distinct errors, and forwards any
excess entirely to the fee distributor (never to the lender nor back to the
payer). -/
theorem thm_C3_repay_payment_guard (s : Storage) (env : Env) (b : String) (lid : Nat)
    (c : CollateralInfo) (gid : String) (o : OfferInfo) (sb : Nat)
    (hc : mapGet s.collaterals (b, lid) = some c)
    (hst : c.state = .Started)
    (hsb : c.start_block = some sb)
    (hao : c.active_offer = some gid)
    (ho : mapGet s.offers gid = some o)
    (hob : o.borrower = b) (holid : o.loan_id = lid)
    (hnd : ¬ sb + o.terms.duration_in_blocks < env.block_height)
    (hfee : s.contract_info.fee_rate < E18)
    (hassets : ∀ a ∈ c.associated_assets, isNftAsset a = true) :
    (∀ funds : List Coin, funds.length ≠ 1 →
      repay_borrowed_funds s env ⟨b, funds⟩ lid = .error .MultipleCoins) ∧
    (∀ coin : Coin, o.terms.principle.denom ≠ coin.denom →
      repay_borrowed_funds s env ⟨b, [coin]⟩ lid = .error .FundsDontMatchTerms) ∧
    (∀ coin : Coin, o.terms.principle.denom = coin.denom →
      coin.amount < o.terms.principle.amount + o.terms.interest →
      repay_borrowed_funds s env ⟨b, [coin]⟩ lid = .error
        (.FundsDontMatchTermsAndPrinciple
          (o.terms.principle.amount + o.terms.interest) coin.amount)) ∧
    (∀ coin : Coin, o.terms.principle.denom = coin.denom →
      o.terms.principle.amount + o.terms.interest ≤ coin.amount →
      ∃ s2 msgs, repay_borrowed_funds s env ⟨b, [coin]⟩ lid = .ok (s2, msgs) ∧
        bankPaidTo msgs o.lender coin.denom =
          o.terms.principle.amount +
            o.terms.interest * (E18 - s.contract_info.fee_rate) / E18 ∧
        bankPaidTo msgs o.lender coin.denom ≤
          o.terms.principle.amount + o.terms.interest ∧
        feesPaidTo msgs s.contract_info.fee_distributor coin.denom =
          coin.amount - (o.terms.principle.amount +
            o.terms.interest * (E18 - s.contract_info.fee_rate) / E18) ∧
        (b ≠ o.lender → bankPaidTo msgs b coin.denom = 0)) := by
  have hal : get_active_loan s c = .ok { o with state := derivedState o.state c.state } := by
    unfold get_active_loan
    rw [hao]
    exact get_offer_of_stored s gid o c ho (by rw [hob, holid]; exact hc)
  have hdef : is_loan_defaulted s env c = .error (.WrongLoanState .Started) := by
    simp only [is_loan_defaulted, hal, hst, hsb]
    rw [if_neg hnd]
  have hcr : can_repay_loan s env c = .ok () := by
    simp [can_repay_loan, hdef, exceptIsOk, hst]
  refine ⟨?_, ?_, ?_, ?_⟩
  · intro funds hlen
    simp only [repay_borrowed_funds, hc, hcr, hal]
    cases funds with
    | nil => rfl
    | cons a rest =>
      cases rest with
      | nil => simp at hlen
      | cons a2 r2 => rfl
  · intro coin hdneq
    simp only [repay_borrowed_funds, hc, hcr, hal]
    rw [if_pos (show ({ o with state := derivedState o.state c.state } :
      OfferInfo).terms.principle.denom ≠ coin.denom from hdneq)]
  · intro coin hdeq hlt
    simp only [repay_borrowed_funds, hc, hcr, hal]
    rw [if_neg (show ¬ ({ o with state := derivedState o.state c.state } :
      OfferInfo).terms.principle.denom ≠ coin.denom from by simp [hdeq])]
    rw [if_pos (show coin.amount < ({ o with state := derivedState o.state c.state } :
      OfferInfo).terms.principle.amount +
      ({ o with state := derivedState o.state c.state } : OfferInfo).terms.interest from hlt)]
  · intro coin hdeq hge
    obtain ⟨s2, msgs, hok, hbank, hfees, hzero⟩ := repay_accounting s env b lid coin c gid o
      sb hc hst hsb hao ho hob holid hnd hdeq hge hfee hassets
    refine ⟨s2, msgs, hok, hbank, ?_, hfees, fun hbl => hzero b hbl⟩
    rw [hbank]
    exact payback_le _ _ _ (le_of_lt hfee)

theorem collateral_addresses_error {l : List AssetInfo} {e : ContractError}
    (h : collateral_addresses l = .error e) : e = .Unreachable := by
  induction l with
  | nil => exact Except.noConfusion h
  | cons a rest ih =>
    cases a with
    | Cw721Coin address token_id =>
      unfold collateral_addresses at h
      cases hr : collateral_addresses rest with
      | error e2 =>
        rw [hr] at h
        cases h
        exact ih hr
      | ok l2 =>
        rw [hr] at h
        exact Except.noConfusion h
    | Sg721Token address token_id =>
      unfold collateral_addresses at h
      cases hr : collateral_addresses rest with
      | error e2 =>
        rw [hr] at h
        cases h
        exact ih hr
      | ok l2 =>
        rw [hr] at h
        exact Except.noConfusion h
    | Cw1155Coin address token_id value =>
      unfold collateral_addresses at h
      cases h
      rfl
    | CoinAsset coin =>
      unfold collateral_addresses at h
      cases h
      rfl
    | Cw20Coin address amount =>
      unfold collateral_addresses at h
      cases h
      rfl

theorem withdraw_asset_msg_error {a : AssetInfo} {recipient : String} {e : ContractError}
    (h : withdraw_asset_msg a recipient = .error e) : e = .Std "msg" := by
  cases a <;> simp [withdraw_asset_msg] at h <;> try exact h.symm
  all_goals cases h

theorem withdraw_asset_step_apply (recipient : String) (a : AssetInfo)
    (acc : Except ContractError (List LoanMsg)) :
    withdraw_asset_step recipient a acc =
      (match withdraw_asset_msg a recipient with
       | .error e => .error e
       | .ok msg =>
         match acc with
         | .error e => .error e
         | .ok msgs => .ok (msg :: msgs)) := rfl

theorem withdraw_foldr_error (recipient : String) :
    ∀ (l : List AssetInfo) (e : ContractError),
      l.foldr (withdraw_asset_step recipient) (.ok []) = .error e → e = .Std "msg" := by
  intro l
  induction l with
  | nil =>
    intro e h
    exact Except.noConfusion h
  | cons a rest ih =>
    intro e h
    rw [List.foldr_cons, withdraw_asset_step_apply] at h
    cases hm : withdraw_asset_msg a recipient with
    | error e2 =>
      rw [hm] at h
      cases h
      exact withdraw_asset_msg_error hm
    | ok msg =>
      rw [hm] at h
      cases hrest : rest.foldr (withdraw_asset_step recipient) (.ok []) with
      | error e2 =>
        rw [hrest] at h
        cases h
        exact ih _ hrest
      | ok msgs =>
        rw [hrest] at h
        exact Except.noConfusion h

theorem withdraw_loan_msgs_error {c : CollateralInfo} {recipient : String}
    {e : ContractError} (h : withdraw_loan_msgs c recipient = .error e) : e = .Std "msg" :=
  withdraw_foldr_error recipient c.associated_assets e h

/-- C10: once the payment guard passes (single coin, right denomination,
amount at least principal + interest) and the fee rate is below one, the
computed lender payback never exceeds the sent amount, so the checked
subtraction computing the fee-distributor amount cannot panic: no execution
of `repay_borrowed_funds` reaches the arithmetic-panic branch. -/
theorem thm_C10_no_underflow (s : Storage) (env : Env) (b : String) (lid : Nat)
    (coin : Coin) (c : CollateralInfo) (gid : String) (o : OfferInfo) (sb : Nat)
    (hc : mapGet s.collaterals (b, lid) = some c)
    (hst : c.state = .Started)
    (hsb : c.start_block = some sb)
    (hao : c.active_offer = some gid)
    (ho : mapGet s.offers gid = some o)
    (hob : o.borrower = b) (holid : o.loan_id = lid)
    (hnd : ¬ sb + o.terms.duration_in_blocks < env.block_height)
    (hdenom : o.terms.principle.denom = coin.denom)
    (hamt : o.terms.principle.amount + o.terms.interest ≤ coin.amount)
    (hfee : s.contract_info.fee_rate < E18) :
    o.terms.principle.amount + o.terms.interest * (E18 - s.contract_info.fee_rate) / E18 ≤
      coin.amount ∧
    repay_borrowed_funds s env ⟨b, [coin]⟩ lid ≠ .error .Panic := by
  have hple : o.terms.principle.amount +
      o.terms.interest * (E18 - s.contract_info.fee_rate) / E18 ≤ coin.amount :=
    le_trans (payback_le _ _ _ (le_of_lt hfee)) hamt
  refine ⟨hple, ?_⟩
  have hal : get_active_loan s c = .ok { o with state := derivedState o.state c.state } := by
    unfold get_active_loan
    rw [hao]
    exact get_offer_of_stored s gid o c ho (by rw [hob, holid]; exact hc)
  have hdef : is_loan_defaulted s env c = .error (.WrongLoanState .Started) := by
    simp only [is_loan_defaulted, hal, hst, hsb]
    rw [if_neg hnd]
  have hcr : can_repay_loan s env c = .ok () := by
    simp [can_repay_loan, hdef, exceptIsOk, hst]
  simp only [repay_borrowed_funds, hc, hcr, hal]
  rw [if_neg (show ¬ ({ o with state := derivedState o.state c.state } :
      OfferInfo).terms.principle.denom ≠ coin.denom from by simp [hdenom])]
  rw [if_neg (show ¬ coin.amount < ({ o with state := derivedState o.state c.state } :
      OfferInfo).terms.principle.amount +
      ({ o with state := derivedState o.state c.state } : OfferInfo).terms.interest from by
    simp only
    omega)]
  rw [if_neg (show ¬ E18 < s.contract_info.fee_rate from by omega)]
  rw [if_neg (show ¬ coin.amount < ({ o with state := derivedState o.state c.state } :
      OfferInfo).terms.principle.amount +
      ({ o with state := derivedState o.state c.state } : OfferInfo).terms.interest *
        (E18 - s.contract_info.fee_rate) / E18 from by
    simp only
    omega)]
  intro hcontra
  split at hcontra
  next e heq =>
    rw [Except.error.injEq] at hcontra
    have he := collateral_addresses_error heq
    rw [he] at hcontra
    exact ContractError.noConfusion hcontra
  next addrs heq =>
    split at hcontra
    next e2 heq2 =>
      rw [Except.error.injEq] at hcontra
      have he2 := withdraw_loan_msgs_error heq2
      rw [he2] at hcontra
      exact ContractError.noConfusion hcontra
    next msgs2 heq2 =>
      exact Except.noConfusion hcontra

theorem thm_C3_witness :
    repay_borrowed_funds c2S ⟨3, 6, "loan_contract"⟩ ⟨"alice", []⟩ 0 =
      .error .MultipleCoins ∧
    repay_borrowed_funds c2S ⟨3, 6, "loan_contract"⟩ ⟨"alice", [⟨"other", 506⟩]⟩ 0 =
      .error .FundsDontMatchTerms ∧
    repay_borrowed_funds c2S ⟨3, 6, "loan_contract"⟩ ⟨"alice", [⟨"ux", 505⟩]⟩ 0 =
      .error (.FundsDontMatchTermsAndPrinciple 506 505) ∧
    ∃ s2 msgs,
      repay_borrowed_funds c2S ⟨3, 6, "loan_contract"⟩ ⟨"alice", [⟨"ux", 600⟩]⟩ 0 =
        .ok (s2, msgs) ∧
      feesPaidTo msgs "fee_distributor_addr" "ux" = 97 ∧
      bankPaidTo msgs "alice" "ux" = 0 := by
  have h := thm_C3_repay_payment_guard c2S ⟨3, 6, "loan_contract"⟩ "alice" 0 c2Coll "1"
    c2Offer 2 rfl rfl rfl rfl rfl rfl rfl (by decide) (by decide) (by decide)
  obtain ⟨h1, h2, h3, h4⟩ := h
  refine ⟨h1 [] (by decide), h2 ⟨"other", 506⟩ (by decide), ?_, ?_⟩
  · exact h3 ⟨"ux", 505⟩ rfl (by decide)
  · obtain ⟨s2, msgs, hok, hbank, hle, hfees, hzero⟩ := h4 ⟨"ux", 600⟩ rfl (by decide)
    refine ⟨s2, msgs, hok, ?_, hzero (by decide)⟩
    have hf : feesPaidTo msgs "fee_distributor_addr" "ux" =
        600 - (c2Offer.terms.principle.amount +
          c2Offer.terms.interest * (E18 - c2S.contract_info.fee_rate) / E18) := hfees
    rw [hf]
    decide

theorem thm_C10_witness :
    c2Offer.terms.principle.amount +
      c2Offer.terms.interest * (E18 - c2S.contract_info.fee_rate) / E18 ≤ 506 ∧
    repay_borrowed_funds c2S ⟨3, 6, "loan_contract"⟩ ⟨"alice", [⟨"ux", 506⟩]⟩ 0 ≠
      .error .Panic :=
  thm_C10_no_underflow c2S ⟨3, 6, "loan_contract"⟩ "alice" 0 ⟨"ux", 506⟩ c2Coll "1"
    c2Offer 2 rfl rfl rfl rfl rfl rfl rfl (by decide) rfl (by decide) (by decide)

/-! ### The default predicate (C4) -/

/-- C4 counterexample: at `current_block_height = start_block + duration`
(here `3 = 2 + 1`) the claim says the loan is defaulted, but
`is_loan_defaulted` still rejects with the `Started` state guard — the code
requires the height to exceed the deadline strictly. -/
theorem thm_C4_counterexample :
    c2Coll.state = .Started ∧
    c2Coll.start_block = some 2 ∧
    c2Offer.terms.duration_in_blocks = 1 ∧
    2 + 1 ≤ 3 ∧
    is_loan_defaulted c2S ⟨3, 6, "loan_contract"⟩ c2Coll =
      .error (.WrongLoanState .Started) := by
  refine ⟨rfl, rfl, rfl, by omega, ?_⟩
  rfl

/-- C4 (amended): the default predicate holds exactly when the state is
`Started` and `start_block + duration_in_blocks < current_block_height`
(strictly), or the state is already `Defaulted`; a `Started` loan at or
before the deadline fails with the guard error naming `Started`, and every
other state (when the active offer resolves) fails naming that state. -/
theorem thm_C4_defaulted_strict (s : Storage) (env : Env) (c ccol : CollateralInfo)
    (gid : String) (o : OfferInfo) (sb : Nat)
    (hao : c.active_offer = some gid)
    (ho : mapGet s.offers gid = some o)
    (hcol : mapGet s.collaterals (o.borrower, o.loan_id) = some ccol)
    (hsb : c.start_block = some sb) :
    (exceptIsOk (is_loan_defaulted s env c) = true ↔
      (c.state = .Defaulted ∨
        (c.state = .Started ∧ sb + o.terms.duration_in_blocks < env.block_height))) ∧
    (c.state = .Started → ¬ sb + o.terms.duration_in_blocks < env.block_height →
      is_loan_defaulted s env c = .error (.WrongLoanState .Started)) ∧
    (∀ st, c.state = st → st ≠ .Started → st ≠ .Defaulted →
      is_loan_defaulted s env c = .error (.WrongLoanState st)) := by
  have hal : get_active_loan s c = .ok { o with state := derivedState o.state ccol.state } := by
    unfold get_active_loan
    rw [hao]
    exact get_offer_of_stored s gid o ccol ho hcol
  refine ⟨?_, ?_, ?_⟩
  · cases hst : c.state with
    | Started =>
      simp only [is_loan_defaulted, hal, hst, hsb]
      by_cases hcond : sb + o.terms.duration_in_blocks < env.block_height
      · rw [if_pos (show sb + ({ o with state := derivedState o.state ccol.state } :
          OfferInfo).terms.duration_in_blocks < env.block_height from hcond)]
        simp [exceptIsOk, hcond]
      · rw [if_neg (show ¬ sb + ({ o with state := derivedState o.state ccol.state } :
          OfferInfo).terms.duration_in_blocks < env.block_height from hcond)]
        simp [exceptIsOk, hcond]
    | Defaulted =>
      simp [is_loan_defaulted, hal, hst, exceptIsOk]
    | Published =>
      simp [is_loan_defaulted, hal, hst, exceptIsOk]
    | Ended =>
      simp [is_loan_defaulted, hal, hst, exceptIsOk]
    | AssetWithdrawn =>
      simp [is_loan_defaulted, hal, hst, exceptIsOk]
  · intro hst hcond
    simp only [is_loan_defaulted, hal, hst, hsb]
    rw [if_neg (show ¬ sb + ({ o with state := derivedState o.state ccol.state } :
      OfferInfo).terms.duration_in_blocks < env.block_height from hcond)]
  · intro st hst hns hnd
    cases st with
    | Started => exact absurd rfl hns
    | Defaulted => exact absurd rfl hnd
    | Published => simp [is_loan_defaulted, hal, hst]
    | Ended => simp [is_loan_defaulted, hal, hst]
    | AssetWithdrawn => simp [is_loan_defaulted, hal, hst]

theorem thm_C4_witness :
    (exceptIsOk (is_loan_defaulted c2S ⟨4, 6, "loan_contract"⟩ c2Coll) = true ↔
      (c2Coll.state = .Defaulted ∨
        (c2Coll.state = .Started ∧ 2 + c2Offer.terms.duration_in_blocks < 4))) ∧
    (c2Coll.state = .Started → ¬ 2 + c2Offer.terms.duration_in_blocks < 4 →
      is_loan_defaulted c2S ⟨4, 6, "loan_contract"⟩ c2Coll =
        .error (.WrongLoanState .Started)) ∧
    (∀ st, c2Coll.state = st → st ≠ .Started → st ≠ .Defaulted →
      is_loan_defaulted c2S ⟨4, 6, "loan_contract"⟩ c2Coll =
        .error (.WrongLoanState st)) :=
  thm_C4_defaulted_strict c2S ⟨4, 6, "loan_contract"⟩ c2Coll c2Coll "1" c2Offer 2
    rfl rfl rfl rfl

/-! ### Default claim (C5) -/

/-- Fungible-fund movement messages (bank transfers and fee deposits). -/
def isFundMsg : LoanMsg → Bool
  | .BankSend _ _ => true
  | .DepositFees _ _ _ => true
  | _ => false

theorem isFundMsg_nftTransfer (recipient : String) (a : AssetInfo)
    (h : isNftAsset a = true) : isFundMsg (nftTransferMsg recipient a) = false := by
  cases a <;> simp [isNftAsset] at h <;> rfl

theorem get_active_loan_eq (s : Storage) (c : CollateralInfo) (gid : String)
    (hao : c.active_offer = some gid) : get_active_loan s c = get_offer s gid := by
  unfold get_active_loan
  rw [hao]

/-- C5: claiming a defaulted loan succeeds exactly for the active offer's
lender on a `Started` loan strictly past its deadline and not already
`Defaulted`; it moves the collateral to `Defaulted`, emits exactly the
asset transfers to the lender and no fund transfer, and a second claim on
the resulting storage fails with `LoanAlreadyDefaulted`. -/
theorem thm_C5_withdraw_defaulted (s : Storage) (env : Env) (info : MessageInfo)
    (b : String) (lid : Nat) (c : CollateralInfo) (gid : String) (o : OfferInfo) (sb : Nat)
    (hc : mapGet s.collaterals (b, lid) = some c)
    (hsb : c.start_block = some sb)
    (hao : c.active_offer = some gid)
    (ho : mapGet s.offers gid = some o)
    (hob : o.borrower = b) (holid : o.loan_id = lid)
    (hassets : ∀ a ∈ c.associated_assets, isNftAsset a = true) :
    (c.state = .Started → sb + o.terms.duration_in_blocks < env.block_height →
      info.sender = o.lender →
      withdraw_defaulted_loan s env info b lid = .ok
        ({ s with collaterals :=
            (mapSet s.collaterals (b, lid) { c with state := .Defaulted }) },
          c.associated_assets.map (nftTransferMsg o.lender)) ∧
      (∀ m ∈ c.associated_assets.map (nftTransferMsg o.lender), isFundMsg m = false) ∧
      (∀ env2 : Env,
        withdraw_defaulted_loan
          { s with collaterals :=
              (mapSet s.collaterals (b, lid) { c with state := .Defaulted }) }
          env2 info b lid = .error .LoanAlreadyDefaulted)) ∧
    (c.state = .Started → sb + o.terms.duration_in_blocks < env.block_height →
      info.sender ≠ o.lender →
      withdraw_defaulted_loan s env info b lid = .error .Unauthorized) ∧
    (c.state = .Defaulted → info.sender = o.lender →
      withdraw_defaulted_loan s env info b lid = .error .LoanAlreadyDefaulted) ∧
    (c.state = .Started → ¬ sb + o.terms.duration_in_blocks < env.block_height →
      withdraw_defaulted_loan s env info b lid = .error (.WrongLoanState .Started)) := by
  have hal : get_active_loan s c = .ok { o with state := derivedState o.state c.state } := by
    unfold get_active_loan
    rw [hao]
    exact get_offer_of_stored s gid o c ho (by rw [hob, holid]; exact hc)
  refine ⟨?_, ?_, ?_, ?_⟩
  · intro hst htime hsender
    have hdok : is_loan_defaulted s env c = .ok () := by
      simp only [is_loan_defaulted, hal, hst, hsb]
      rw [if_pos (show sb + ({ o with state := derivedState o.state c.state } :
        OfferInfo).terms.duration_in_blocks < env.block_height from htime)]
    have hial : is_active_lender s info.sender c =
        .ok { o with state := derivedState o.state c.state } := by
      unfold is_active_lender
      rw [hal]
      simp only [id]
      rw [if_neg (show ¬ info.sender ≠ ({ o with state := derivedState o.state c.state } :
        OfferInfo).lender from by simp [hsender])]
    refine ⟨?_, ?_, ?_⟩
    · simp only [withdraw_defaulted_loan, hc, hdok, hial]
      rw [if_neg (show ¬ c.state = .Defaulted from by simp [hst])]
      rw [withdraw_loan_msgs_ok { c with state := .Defaulted }
        ({ o with state := derivedState o.state c.state } : OfferInfo).lender hassets]
    · intro m hm
      rcases List.mem_map.1 hm with ⟨a, ha, rfl⟩
      exact isFundMsg_nftTransfer _ _ (hassets a ha)
    · intro env2
      have hc2 : mapGet (mapSet s.collaterals (b, lid)
          ({ c with state := LoanState.Defaulted } : CollateralInfo)) (b, lid) =
          some { c with state := .Defaulted } := mapGet_set_self _ _ _
      have hgo2 : get_offer
          { s with collaterals :=
            (mapSet s.collaterals (b, lid) { c with state := .Defaulted }) } gid =
          .ok { o with state := derivedState o.state LoanState.Defaulted } := by
        have hcol2 : mapGet ({ s with collaterals :=
            (mapSet s.collaterals (b, lid) { c with state := .Defaulted }) } :
            Storage).collaterals (o.borrower, o.loan_id) =
            some { c with state := .Defaulted } := by
          rw [hob, holid]
          exact hc2
        exact get_offer_of_stored _ gid o { c with state := .Defaulted } ho hcol2
      have hal2 : get_active_loan
          { s with collaterals :=
            (mapSet s.collaterals (b, lid) { c with state := .Defaulted }) }
          { c with state := .Defaulted } =
          .ok { o with state := derivedState o.state LoanState.Defaulted } := by
        rw [get_active_loan_eq _ _ gid (show ({ c with state := LoanState.Defaulted } :
          CollateralInfo).active_offer = some gid from hao)]
        exact hgo2
      have hd2 : is_loan_defaulted
          { s with collaterals :=
            (mapSet s.collaterals (b, lid) { c with state := .Defaulted }) }
          env2 { c with state := .Defaulted } = .ok () := by
        simp [is_loan_defaulted, hal2]
      have hial2 : is_active_lender
          { s with collaterals :=
            (mapSet s.collaterals (b, lid) { c with state := .Defaulted }) }
          info.sender { c with state := .Defaulted } =
          .ok { o with state := derivedState o.state LoanState.Defaulted } := by
        unfold is_active_lender
        rw [hal2]
        simp only [id]
        rw [if_neg (show ¬ info.sender ≠
          ({ o with state := derivedState o.state LoanState.Defaulted } :
            OfferInfo).lender from by simp [hsender])]
      simp [withdraw_defaulted_loan, hc2, hd2, hial2]
  · intro hst htime hsender
    have hdok : is_loan_defaulted s env c = .ok () := by
      simp only [is_loan_defaulted, hal, hst, hsb]
      rw [if_pos (show sb + ({ o with state := derivedState o.state c.state } :
        OfferInfo).terms.duration_in_blocks < env.block_height from htime)]
    have hial : is_active_lender s info.sender c = .error .Unauthorized := by
      unfold is_active_lender
      rw [hal]
      simp only [id]
      rw [if_pos (show info.sender ≠ ({ o with state := derivedState o.state c.state } :
        OfferInfo).lender from hsender)]
    simp only [withdraw_defaulted_loan, hc, hdok, hial]
  · intro hst hsender
    have hdok : is_loan_defaulted s env c = .ok () := by
      simp [is_loan_defaulted, hal, hst]
    have hial : is_active_lender s info.sender c =
        .ok { o with state := derivedState o.state c.state } := by
      unfold is_active_lender
      rw [hal]
      simp only [id]
      rw [if_neg (show ¬ info.sender ≠ ({ o with state := derivedState o.state c.state } :
        OfferInfo).lender from by simp [hsender])]
    simp only [withdraw_defaulted_loan, hc, hdok, hial]
    rw [if_pos hst]
  · intro hst htime
    have hderr : is_loan_defaulted s env c = .error (.WrongLoanState .Started) := by
      simp only [is_loan_defaulted, hal, hst, hsb]
      rw [if_neg (show ¬ sb + ({ o with state := derivedState o.state c.state } :
        OfferInfo).terms.duration_in_blocks < env.block_height from htime)]
    simp only [withdraw_defaulted_loan, hc, hderr]

theorem thm_C5_witness :
    withdraw_defaulted_loan c2S ⟨4, 6, "loan_contract"⟩ ⟨"bob", []⟩ "alice" 0 =
      .ok ({ c2S with collaterals :=
          (mapSet c2S.collaterals ("alice", 0) { c2Coll with state := .Defaulted }) },
        c2Coll.associated_assets.map (nftTransferMsg c2Offer.lender)) ∧
    withdraw_defaulted_loan
        { c2S with collaterals :=
            (mapSet c2S.collaterals ("alice", 0) { c2Coll with state := .Defaulted }) }
        ⟨9, 9, "loan_contract"⟩ ⟨"bob", []⟩ "alice" 0 = .error .LoanAlreadyDefaulted ∧
    withdraw_defaulted_loan c2S ⟨4, 6, "loan_contract"⟩ ⟨"mallory", []⟩ "alice" 0 =
      .error .Unauthorized ∧
    withdraw_defaulted_loan c2S ⟨3, 6, "loan_contract"⟩ ⟨"bob", []⟩ "alice" 0 =
      .error (.WrongLoanState .Started) := by
  have h1 := thm_C5_withdraw_defaulted c2S ⟨4, 6, "loan_contract"⟩ ⟨"bob", []⟩
    "alice" 0 c2Coll "1" c2Offer 2 rfl rfl rfl rfl rfl rfl (by decide)
  have h2 := thm_C5_withdraw_defaulted c2S ⟨4, 6, "loan_contract"⟩ ⟨"mallory", []⟩
    "alice" 0 c2Coll "1" c2Offer 2 rfl rfl rfl rfl rfl rfl (by decide)
  have h3 := thm_C5_withdraw_defaulted c2S ⟨3, 6, "loan_contract"⟩ ⟨"bob", []⟩
    "alice" 0 c2Coll "1" c2Offer 2 rfl rfl rfl rfl rfl rfl (by decide)
  refine ⟨?_, ?_, ?_, ?_⟩
  · exact (h1.1 rfl (by decide) rfl).1
  · exact (h1.1 rfl (by decide) rfl).2.2 ⟨9, 9, "loan_contract"⟩
  · exact h2.2.1 rfl (by decide) (by decide)
  · exact h3.2.2.2 rfl (by decide)

def c6Offer : OfferInfo :=
  { c2Offer with state := .Published }

def c6S : Storage :=
  { c2S with offers := [("1", c2Offer), ("2", c6Offer)] }

def c6SP : Storage :=
  { c2S with
    collaterals := [(("alice", 0), { c2Coll with state := .Published })]
    offers := [("2", c6Offer)] }

/-- C6: the derived ("soft-refusal") read view.  A stored `Published` offer
whose collateral has left `Published` is read back as `Refused`; a stored
`Published` offer on a still-`Published` collateral, and any offer stored
in a non-`Published` state, are read back exactly as stored.  `get_offer`
takes the storage immutably (the source signature takes `Deps`, not
`DepsMut`) and returns only an `OfferInfo`, so the read cannot mutate
storage by construction. -/
theorem thm_C6_derived_read_state (s : Storage) (gid : String) (o : OfferInfo)
    (c : CollateralInfo)
    (ho : mapGet s.offers gid = some o)
    (hc : mapGet s.collaterals (o.borrower, o.loan_id) = some c) :
    (o.state = .Published → c.state ≠ .Published →
      get_offer s gid = .ok { o with state := .Refused }) ∧
    (c.state = .Published → get_offer s gid = .ok o) ∧
    (o.state ≠ .Published → get_offer s gid = .ok o) := by
  have hgo := get_offer_of_stored s gid o c ho hc
  refine ⟨?_, ?_, ?_⟩
  · intro hop hcp
    rw [hgo, hop]
    simp only [derivedState]
    rw [if_pos hcp]
  · intro hcp
    rw [hgo, hcp]
    have hds : derivedState o.state .Published = o.state := by
      cases o.state <;> simp [derivedState]
    rw [hds]
  · intro hop
    rw [hgo]
    have hds : derivedState o.state c.state = o.state := by
      cases hst : o.state <;> simp [derivedState]
      exact absurd hst hop
    rw [hds]

theorem thm_C6_witness :
    get_offer c6S "2" = .ok { c6Offer with state := .Refused } ∧
    get_offer c6SP "2" = .ok c6Offer ∧
    get_offer c6S "1" = .ok c2Offer := by
  refine ⟨?_, ?_, ?_⟩
  · exact (thm_C6_derived_read_state c6S "2" c6Offer c2Coll rfl rfl).1 rfl (by decide)
  · exact (thm_C6_derived_read_state c6SP "2" c6Offer
      { c2Coll with state := .Published } rfl rfl).2.1 rfl
  · exact (thm_C6_derived_read_state c6S "1" c2Offer c2Coll rfl rfl).2.2 (by decide)

/-- C7 counterexample: on a stored-`Published` offer whose collateral has
moved to `Started`, `accept_offer_raw` fails with `NotAcceptable` (the
collateral guard `is_loan_acceptable` fires first), which is not the
"wrong offer state" error reporting the stored `Published` state that the
claim asserts. -/
theorem thm_C7_counterexample :
    accept_offer_raw (fun _ _ => some "alice") c6S ⟨4, 6, "loan_contract"⟩ "2" =
      .error .NotAcceptable ∧
    ContractError.NotAcceptable ≠ ContractError.WrongOfferState .Published :=
  ⟨rfl, by decide⟩

/-- C7 (amended): accepting a stored-`Published` offer whose collateral has
left `Published` fails, but with `NotAcceptable` from the collateral-state
guard, which runs before the offer-state check; the failure is never a
`WrongOfferState` error, so no state — stored or derived — is reported. -/
theorem thm_C7_accept_soft_refused (ownerOf : String → String → Option String)
    (s : Storage) (env : Env) (gid : String) (o : OfferInfo) (c : CollateralInfo)
    (ho : mapGet s.offers gid = some o)
    (hc : mapGet s.collaterals (o.borrower, o.loan_id) = some c)
    (hop : o.state = .Published)
    (hcp : c.state ≠ .Published) :
    accept_offer_raw ownerOf s env gid = .error .NotAcceptable ∧
    ∀ st, accept_offer_raw ownerOf s env gid ≠ .error (.WrongOfferState st) := by
  have hgo : get_offer s gid = .ok { o with state := OfferState.Refused } := by
    rw [get_offer_of_stored s gid o c ho hc, hop]
    simp only [derivedState]
    rw [if_pos hcp]
  have hia : is_loan_acceptable c = .error .NotAcceptable := by
    cases hst : c.state
    case Published => exact absurd hst hcp
    all_goals unfold is_loan_acceptable
    all_goals rw [hst]
  have heq : accept_offer_raw ownerOf s env gid = .error .NotAcceptable := by
    simp only [accept_offer_raw, hgo, hc, hia]
  refine ⟨heq, ?_⟩
  intro st h
  rw [heq] at h
  injection h with h2
  exact ContractError.noConfusion h2

theorem thm_C7_witness :
    accept_offer_raw (fun _ _ => some "bob") c6S ⟨5, 7, "loan_contract"⟩ "2" =
      .error .NotAcceptable ∧
    ∀ st, accept_offer_raw (fun _ _ => some "bob") c6S ⟨5, 7, "loan_contract"⟩ "2" ≠
      .error (.WrongOfferState st) :=
  thm_C7_accept_soft_refused (fun _ _ => some "bob") c6S ⟨5, 7, "loan_contract"⟩ "2"
    c6Offer c2Coll rfl rfl rfl (by decide)

def c8S : Storage :=
  { c2S with collaterals := [(("alice", 0), { c2Coll with state := .Published })] }

/-- C8: `refuse_offer` succeeds exactly when the caller is the offer's
borrower, the collateral is still counterable (`Published`), and the offer
is stored `Published`; a violated collateral-state guard and a violated
offer-state guard both fail with the single `NotRefusable` error; a wrong
caller fails with `Unauthorized`; on success the offer is re-stored with
state `Refused`, its `deposited_funds` field is unchanged, and no messages
are emitted. -/
theorem thm_C8_refuse_offer (s : Storage) (info : MessageInfo) (gid : String)
    (o : OfferInfo) (c : CollateralInfo)
    (ho : mapGet s.offers gid = some o)
    (hc : mapGet s.collaterals (o.borrower, o.loan_id) = some c) :
    (info.sender = o.borrower → c.state = .Published → o.state = .Published →
      refuse_offer s info gid =
        .ok ({ s with offers := (mapSet s.offers gid { o with state := .Refused }) },
          []) ∧
      ({ o with state := OfferState.Refused } : OfferInfo).deposited_funds =
        o.deposited_funds) ∧
    (info.sender = o.borrower → c.state ≠ .Published →
      refuse_offer s info gid = .error .NotRefusable) ∧
    (info.sender = o.borrower → c.state = .Published → o.state ≠ .Published →
      refuse_offer s info gid = .error .NotRefusable) ∧
    (info.sender ≠ o.borrower →
      refuse_offer s info gid = .error .Unauthorized) := by
  have hgo := get_offer_of_stored s gid o c ho hc
  refine ⟨?_, ?_, ?_, ?_⟩
  · intro hs hcp hop
    have hod : ({ o with state := derivedState o.state c.state } : OfferInfo) = o := by
      rw [hop, hcp]
      simp only [derivedState]
      rw [if_neg (show ¬ LoanState.Published ≠ LoanState.Published from by simp)]
      rw [← hop]
    have hib : is_offer_borrower s info.sender gid = .ok o := by
      unfold is_offer_borrower
      rw [hgo, hod]
      simp only [id]
      rw [if_neg (show ¬ info.sender ≠ o.borrower from by simp [hs])]
    have hir : is_offer_refusable c o = .ok () := by
      unfold is_offer_refusable is_loan_counterable
      rw [hcp, hop]
    refine ⟨?_, rfl⟩
    simp only [refuse_offer, hib, hc, hir]
  · intro hs hcp
    have hib : is_offer_borrower s info.sender gid =
        .ok { o with state := derivedState o.state c.state } := by
      unfold is_offer_borrower
      rw [hgo]
      simp only [id]
      rw [if_neg (show ¬ info.sender ≠
        ({ o with state := derivedState o.state c.state } : OfferInfo).borrower from
        by simp [hs])]
    have hlc : is_loan_counterable c = .error .NotCounterable := by
      cases hst : c.state
      case Published => exact absurd hst hcp
      all_goals unfold is_loan_counterable
      all_goals rw [hst]
    have hir : is_offer_refusable c
        ({ o with state := derivedState o.state c.state } : OfferInfo) =
        .error .NotRefusable := by
      unfold is_offer_refusable
      rw [hlc]
    simp only [refuse_offer, hib, hc, hir]
  · intro hs hcp hop
    have hds : derivedState o.state c.state = o.state := by
      rw [hcp]
      cases o.state <;> simp [derivedState]
    have hod : ({ o with state := derivedState o.state c.state } : OfferInfo) = o := by
      rw [hds]
    have hib : is_offer_borrower s info.sender gid = .ok o := by
      unfold is_offer_borrower
      rw [hgo, hod]
      simp only [id]
      rw [if_neg (show ¬ info.sender ≠ o.borrower from by simp [hs])]
    have hir : is_offer_refusable c o = .error .NotRefusable := by
      unfold is_offer_refusable is_loan_counterable
      rw [hcp]
      cases hst : o.state
      case Published => exact absurd hst hop
      all_goals rfl
    simp only [refuse_offer, hib, hc, hir]
  · intro hs
    have hib : is_offer_borrower s info.sender gid = .error .Unauthorized := by
      unfold is_offer_borrower
      rw [hgo]
      simp only [id]
      rw [if_pos (show info.sender ≠
        ({ o with state := derivedState o.state c.state } : OfferInfo).borrower from hs)]
    simp only [refuse_offer, hib]

theorem thm_C8_witness :
    refuse_offer c6SP ⟨"alice", []⟩ "2" =
      .ok ({ c6SP with offers :=
          (mapSet c6SP.offers "2" { c6Offer with state := .Refused }) }, []) ∧
    refuse_offer c6S ⟨"alice", []⟩ "2" = .error .NotRefusable ∧
    refuse_offer c8S ⟨"alice", []⟩ "1" = .error .NotRefusable ∧
    refuse_offer c6SP ⟨"mallory", []⟩ "2" = .error .Unauthorized := by
  refine ⟨?_, ?_, ?_, ?_⟩
  · exact ((thm_C8_refuse_offer c6SP ⟨"alice", []⟩ "2" c6Offer
      { c2Coll with state := .Published } rfl rfl).1 rfl rfl rfl).1
  · exact (thm_C8_refuse_offer c6S ⟨"alice", []⟩ "2" c6Offer c2Coll rfl rfl).2.1
      rfl (by decide)
  · exact (thm_C8_refuse_offer c8S ⟨"alice", []⟩ "1" c2Offer
      { c2Coll with state := .Published } rfl rfl).2.2.1 rfl rfl (by decide)
  · exact (thm_C8_refuse_offer c6SP ⟨"mallory", []⟩ "2" c6Offer
      { c2Coll with state := .Published } rfl rfl).2.2.2 (by decide)

/-- C9: `_make_offer_raw` succeeds exactly when the collateral is
counterable (`Published`) and the attached funds are exactly one coin equal
to `terms.principle` in both denomination and amount (`Coin` equality);
any other coin count fails with `MultipleCoins`, a single mismatched coin
fails with `FundsDontMatchTerms`, a non-counterable collateral fails with
`NotCounterable`; on success the collateral's `offer_amount` and the
global offer counter each increase by 1 and the new offer is stored under
the incremented global index in state `Published` with
`deposited_funds = some terms.principle`. -/
theorem thm_C9_make_offer (s : Storage) (env : Env) (info : MessageInfo)
    (borrower : String) (loan_id : Nat) (terms : LoanTerms) (comment : Option String)
    (c : CollateralInfo)
    (hc : mapGet s.collaterals (borrower, loan_id) = some c) :
    (c.state = .Published → info.funds = [terms.principle] →
      ∃ s2, make_offer_raw s env info borrower loan_id terms comment =
          .ok (s2, Nat.repr (s.contract_info.global_offer_index + 1),
            c.offer_amount + 1) ∧
        s2.contract_info.global_offer_index =
          s.contract_info.global_offer_index + 1 ∧
        mapGet s2.collaterals (borrower, loan_id) =
          some { c with offer_amount := c.offer_amount + 1 } ∧
        mapGet s2.offers (Nat.repr (s.contract_info.global_offer_index + 1)) =
          some { lender := info.sender
                 borrower := borrower
                 loan_id := loan_id
                 offer_id := c.offer_amount + 1
                 terms := terms
                 state := .Published
                 list_date := env.block_time
                 deposited_funds := some terms.principle
                 comment := comment }) ∧
    (c.state = .Published → info.funds.length ≠ 1 →
      make_offer_raw s env info borrower loan_id terms comment =
        .error .MultipleCoins) ∧
    (c.state = .Published → ∀ coin, info.funds = [coin] → coin ≠ terms.principle →
      make_offer_raw s env info borrower loan_id terms comment =
        .error .FundsDontMatchTerms) ∧
    (c.state ≠ .Published →
      make_offer_raw s env info borrower loan_id terms comment =
        .error .NotCounterable) := by
  refine ⟨?_, ?_, ?_, ?_⟩
  · intro hcp hfunds
    have hlc : is_loan_counterable c = .ok () := by
      unfold is_loan_counterable
      rw [hcp]
    refine ⟨{ s with
        collaterals := mapSet s.collaterals (borrower, loan_id)
          { c with offer_amount := c.offer_amount + 1 },
        offers := mapSet s.offers (Nat.repr (s.contract_info.global_offer_index + 1))
          { lender := info.sender
            borrower := borrower
            loan_id := loan_id
            offer_id := c.offer_amount + 1
            terms := terms
            state := .Published
            list_date := env.block_time
            deposited_funds := some terms.principle
            comment := comment },
        contract_info := { s.contract_info with
          global_offer_index := s.contract_info.global_offer_index + 1 } },
      ?_, rfl, ?_, ?_⟩
    · simp only [make_offer_raw, hc, hlc, hfunds]
      rw [if_neg (show ¬ terms.principle ≠ terms.principle from by simp)]
    · exact mapGet_set_self _ _ _
    · exact mapGet_set_self _ _ _
  · intro hcp hlen
    have hlc : is_loan_counterable c = .ok () := by
      unfold is_loan_counterable
      rw [hcp]
    cases hf : info.funds with
    | nil => simp only [make_offer_raw, hc, hlc, hf]
    | cons a t =>
      cases t with
      | nil => exact absurd (by rw [hf]; rfl) hlen
      | cons b2 t2 => simp only [make_offer_raw, hc, hlc, hf]
  · intro hcp coin hfunds hne
    have hlc : is_loan_counterable c = .ok () := by
      unfold is_loan_counterable
      rw [hcp]
    simp only [make_offer_raw, hc, hlc, hfunds]
    rw [if_pos (show terms.principle ≠ coin from fun h => hne h.symm)]
  · intro hcp
    have hlc : is_loan_counterable c = .error .NotCounterable := by
      cases hst : c.state
      case Published => exact absurd hst hcp
      all_goals unfold is_loan_counterable
      all_goals rw [hst]
    simp only [make_offer_raw, hc, hlc]

theorem thm_C9_witness :
    (∃ s2, make_offer_raw c8S ⟨7, 8, "loan_contract"⟩ ⟨"carol", [⟨"ux", 456⟩]⟩
        "alice" 0 c2Terms none = .ok (s2, "2", 2) ∧
      s2.contract_info.global_offer_index = 2 ∧
      mapGet s2.offers "2" = some
        { lender := "carol"
          borrower := "alice"
          loan_id := 0
          offer_id := 2
          terms := c2Terms
          state := .Published
          list_date := 8
          deposited_funds := some c2Terms.principle
          comment := none }) ∧
    make_offer_raw c8S ⟨7, 8, "loan_contract"⟩ ⟨"carol", []⟩ "alice" 0 c2Terms none =
      .error .MultipleCoins ∧
    make_offer_raw c8S ⟨7, 8, "loan_contract"⟩ ⟨"carol", [⟨"ux", 455⟩]⟩ "alice" 0
      c2Terms none = .error .FundsDontMatchTerms ∧
    make_offer_raw c2S ⟨7, 8, "loan_contract"⟩ ⟨"carol", [⟨"ux", 456⟩]⟩ "alice" 0
      c2Terms none = .error .NotCounterable := by
  refine ⟨?_, ?_, ?_, ?_⟩
  · rcases (thm_C9_make_offer c8S ⟨7, 8, "loan_contract"⟩ ⟨"carol", [⟨"ux", 456⟩]⟩
        "alice" 0 c2Terms none { c2Coll with state := .Published } rfl).1 rfl rfl with
      ⟨s2, heq, hidx, _, hoff⟩
    exact ⟨s2, heq, hidx, hoff⟩
  · exact (thm_C9_make_offer c8S ⟨7, 8, "loan_contract"⟩ ⟨"carol", []⟩
      "alice" 0 c2Terms none { c2Coll with state := .Published } rfl).2.1 rfl (by decide)
  · exact (thm_C9_make_offer c8S ⟨7, 8, "loan_contract"⟩ ⟨"carol", [⟨"ux", 455⟩]⟩
      "alice" 0 c2Terms none { c2Coll with state := .Published } rfl).2.2.1 rfl
      ⟨"ux", 455⟩ rfl (by decide)
  · exact (thm_C9_make_offer c2S ⟨7, 8, "loan_contract"⟩ ⟨"carol", [⟨"ux", 456⟩]⟩
      "alice" 0 c2Terms none c2Coll rfl).2.2.2 (by decide)

end AtlasLoan
